import Mathlib

/-!
Shallow embedding of the value type layer of the go-mysql-server repository
(file sql/type.go): the Type variants (null, fixed-width numbers, timestamp,
date, text, boolean, blob, JSON, tuple, array), their Convert / Compare / SQL
operations, the Column / Schema model with CheckRow, and the classification
predicates.  Go interface values are modelled by the inductive GoValue, whose
constructors carry the dynamic type of the boxed value; fallible Go functions
returning (value, error) are modelled with the Outcome type, which has an
extra constructor for a runtime panic (nil dereference or failed type
assertion).  Go float32/float64 payloads are modelled as rationals: every
behavior the development states about floats depends only on integer
truncation, rounding and zero tests, which are insensitive to binary
representation error.  External library functions used by the source
(spf13/cast coercions, strconv parsing, time.Parse on the five fixed layouts,
encoding/json marshalling) are embedded from their documented semantics on
the dynamic types that can actually reach them.
-/

set_option maxHeartbeats 1000000

namespace GoMysql

/-- Error kinds of the type layer, each carrying the arguments the source
formats into the message. -/
inductive GoError where
  | typeNotSupported (t : String)
  | unexpectedType (idx : Nat) (typ : String)
  | unexpectedRowLength (expected got : Nat)
  | convertingToTime (v : String)
  | valueNotNil
  | notTuple (typ : String)
  | invalidColumnNumber (expected got : Nat)
  | notArray (typ : String)
  | convertToSQL (t : String)
  | invalidType (t : String)
  | castError (msg : String)
  | genericError (msg : String)
  deriving DecidableEq, Repr

/-- Result of a Go call returning (value, error); panicked models a runtime
fault (nil dereference or failed type assertion) rather than a returned
error. -/
inductive Outcome (α : Type) where
  | ok (a : α)
  | err (e : GoError)
  | panicked
  deriving DecidableEq, Repr

def Outcome.map {α β : Type} (f : α → β) : Outcome α → Outcome β
  | .ok a => .ok (f a)
  | .err e => .err e
  | .panicked => .panicked

def Outcome.isOk {α : Type} : Outcome α → Bool
  | .ok _ => true
  | _ => false

/-- Location of a Go time.Time: UTC or a fixed offset in seconds east of UTC.
The epoch field of GoTime is absolute, so location only affects formatting. -/
inductive GoLoc where
  | utc
  | offset (sec : Int)
  deriving DecidableEq, Repr

/-- Go time.Time: seconds since the Unix epoch (may be negative), a
nanosecond part in [0, 1e9), and a location. -/
structure GoTime where
  epoch : Int
  nsec : Nat
  loc : GoLoc
  deriving DecidableEq, Repr

/-- Conversion time.Time.UTC(): same instant, location set to UTC. -/
def GoTime.toUTC (t : GoTime) : GoTime := { t with loc := .utc }

/-- Method time.Time.Unix(): whole seconds since the Unix epoch. -/
def GoTime.unix (t : GoTime) : Int := t.epoch

/-- Offset in seconds of a location. -/
def GoLoc.offsetSec : GoLoc → Int
  | .utc => 0
  | .offset s => s

/-- Go values as boxed in an interface, tagged with their dynamic type.
The gen constructor models a value implementing the sql.Generator interface
as the sequence of elements its Next method will yield, the error (if any)
it reports after them instead of io.EOF, and the error (if any) returned by
Close.  The nullv constructor is the sql.nullT sentinel struct value, and
other stands for a boxed value of any dynamic type not otherwise listed. -/
inductive GoValue where
  | nilv
  | boolean (b : Bool)
  | int (i : Int)
  | int8 (i : Int)
  | int16 (i : Int)
  | int32 (i : Int)
  | int64 (i : Int)
  | uint (n : Nat)
  | uint8 (n : Nat)
  | uint16 (n : Nat)
  | uint32 (n : Nat)
  | uint64 (n : Nat)
  | float32 (q : Rat)
  | float64 (q : Rat)
  | str (s : String)
  | bytes (bs : List Nat)
  | time (t : GoTime)
  | duration (d : Int)
  | list (vs : List GoValue)
  | gen (elems : List GoValue) (tailErr : Option GoError) (closeErr : Option GoError)
  | nullv
  | other (typeName : String)

/-- String produced by reflect.TypeOf(v).String() and by the %T format verb
for a non-nil value; for the nil interface %T prints this sentinel while
reflect.TypeOf returns a nil reflect.Type (whose method calls panic). -/
def goTypeNameStr : GoValue → String
  | .nilv => "<nil>"
  | .boolean _ => "bool"
  | .int _ => "int"
  | .int8 _ => "int8"
  | .int16 _ => "int16"
  | .int32 _ => "int32"
  | .int64 _ => "int64"
  | .uint _ => "uint"
  | .uint8 _ => "uint8"
  | .uint16 _ => "uint16"
  | .uint32 _ => "uint32"
  | .uint64 _ => "uint64"
  | .float32 _ => "float32"
  | .float64 _ => "float64"
  | .str _ => "string"
  | .bytes _ => "[]uint8"
  | .time _ => "time.Time"
  | .duration _ => "time.Duration"
  | .list _ => "[]interface \x7b\x7d"
  | .gen _ _ _ => "sql.Generator"
  | .nullv => "sql.nullT"
  | .other n => n

/-- Wrap an integer to w-bit two's complement signed range, as a Go integer
conversion does. -/
def wrapS (w : Nat) (i : Int) : Int :=
  let m : Int := 2 ^ w
  let r := i % m
  if r < m / 2 then r else r - m

/-- Wrap an integer to w-bit unsigned range, as a Go integer conversion
does. -/
def wrapU (w : Nat) (i : Int) : Nat :=
  (i % (2 ^ w : Int)).toNat

/-- Truncation of a rational toward zero, the semantics of a Go
float-to-integer conversion. -/
def truncRat (q : Rat) : Int := q.num.tdiv q.den

/-- Go math.Round: round half away from zero. -/
def goRound (q : Rat) : Int :=
  if 0 ≤ q then (q + 1/2).floor else -(((-q) + 1/2).floor)

/-- Leap year predicate of the proleptic Gregorian calendar used by Go's
time package. -/
def isLeapYear (y : Int) : Bool := y % 4 == 0 && (y % 100 != 0 || y % 400 == 0)

/-- Number of days of a month. -/
def daysInMonth (y m : Int) : Int :=
  if m == 2 then (if isLeapYear y then 29 else 28)
  else if m == 4 || m == 6 || m == 9 || m == 11 then 30
  else 31

/-- Days from the Unix epoch to the civil date y-m-d (Gregorian), the
standard days-from-civil algorithm with floor division. -/
def daysFromCivil (y m d : Int) : Int :=
  let y2 := if m ≤ 2 then y - 1 else y
  let era := Int.fdiv y2 400
  let yoe := y2 - era * 400
  let mp := (m + 9) % 12
  let doy := Int.fdiv (153 * mp + 2) 5 + d - 1
  let doe := yoe * 365 + Int.fdiv yoe 4 - Int.fdiv yoe 100 + doy
  era * 146097 + doe - 719468

/-- Civil date (year, month, day) of a count of days from the Unix epoch,
inverse of daysFromCivil. -/
def civilFromDays (z0 : Int) : Int × Int × Int :=
  let z := z0 + 719468
  let era := Int.fdiv z 146097
  let doe := z - era * 146097
  let yoe := Int.fdiv (doe - Int.fdiv doe 1460 + Int.fdiv doe 36524 - Int.fdiv doe 146096) 365
  let y := yoe + era * 400
  let doy := doe - (365 * yoe + Int.fdiv yoe 4 - Int.fdiv yoe 100)
  let mp := Int.fdiv (5 * doy + 2) 153
  let d := doy - Int.fdiv (153 * mp + 2) 5 + 1
  let m := mp + (if mp < 10 then 3 else -9)
  (y + (if m ≤ 2 then 1 else 0), m, d)

/-- Construction of the UTC time at the given civil fields. -/
def mkUTCTime (y mo d hh mi ss : Int) (nsec : Nat) : GoTime :=
  ⟨daysFromCivil y mo d * 86400 + hh * 3600 + mi * 60 + ss, nsec, .utc⟩

/-- Day number (floor) of an absolute second count. -/
def epochDay (e : Int) : Int := Int.fdiv e 86400

/-- Second of day of an absolute second count, in [0, 86400). -/
def secondOfDay (e : Int) : Int := e - epochDay e * 86400

/-- Numeric value of a decimal digit character. -/
def digitVal (c : Char) : Nat := c.toNat - 48

/-- Reading of exactly k decimal digits into an accumulator, returning the
value and the remaining characters. -/
def readFixedNatAux : Nat → Nat → List Char → Option (Nat × List Char)
  | 0, acc, cs => some (acc, cs)
  | k + 1, acc, c :: cs => if c.isDigit then readFixedNatAux k (acc * 10 + digitVal c) cs else none
  | _ + 1, _, [] => none

/-- Reading of exactly k decimal digits. -/
def readFixedNat (k : Nat) (cs : List Char) : Option (Nat × List Char) :=
  readFixedNatAux k 0 cs

/-- Reading of one expected literal character. -/
def expectChar (c : Char) : List Char → Option (List Char)
  | x :: cs => if x = c then some cs else none
  | [] => none

/-- Reading of a maximal run of decimal digits, returning digits and rest. -/
def readDigits : List Char → List Char × List Char
  | [] => ([], [])
  | c :: cs =>
    if c.isDigit then
      let (ds, rest) := readDigits cs
      (c :: ds, rest)
    else ([], c :: cs)

/-- Value of a list of decimal digit characters. -/
def digitsToNat (ds : List Char) : Nat :=
  ds.foldl (fun acc c => acc * 10 + digitVal c) 0

/-- Model of strconv.ParseInt with base 0 and the given bit size: optional
sign, then decimal digits or a 0x/0o/0b prefixed literal; the result must
fit the bit size or the parse fails with a range error.  Underscore digit
separators are not modelled. -/
def goParseIntBase0 (bitSize : Nat) (s : String) : Option Int :=
  let cs := s.data
  let (neg, cs) := match cs with
    | '-' :: rest => (true, rest)
    | '+' :: rest => (false, rest)
    | rest => (false, rest)
  let magnitude : Option Nat := match cs with
    | '0' :: 'x' :: rest =>
      let (ds, tail) := rest.span (fun c => c.isDigit || ('a' ≤ c && c ≤ 'f') || ('A' ≤ c && c ≤ 'F'))
      if ds.isEmpty || !tail.isEmpty then none
      else some (ds.foldl (fun acc c =>
        acc * 16 + (if c.isDigit then digitVal c
          else if 'a' ≤ c && c ≤ 'f' then c.toNat - 87 else c.toNat - 55)) 0)
    | '0' :: 'o' :: rest =>
      let (ds, tail) := rest.span (fun c => '0' ≤ c && c ≤ '7')
      if ds.isEmpty || !tail.isEmpty then none
      else some (ds.foldl (fun acc c => acc * 8 + digitVal c) 0)
    | '0' :: 'b' :: rest =>
      let (ds, tail) := rest.span (fun c => c = '0' || c = '1')
      if ds.isEmpty || !tail.isEmpty then none
      else some (ds.foldl (fun acc c => acc * 2 + digitVal c) 0)
    | _ =>
      let (ds, tail) := readDigits cs
      if ds.isEmpty || !tail.isEmpty then none else some (digitsToNat ds)
  match magnitude with
  | none => none
  | some n =>
    let v : Int := if neg then -(n : Int) else (n : Int)
    if -(2 ^ (bitSize - 1) : Int) ≤ v && v < 2 ^ (bitSize - 1) then some v else none

/-- Model of strconv.ParseUint with base 0 and the given bit size. -/
def goParseUintBase0 (bitSize : Nat) (s : String) : Option Nat :=
  match goParseIntBase0 (bitSize + 1) s with
  | some v => if 0 ≤ v && v < (2 ^ bitSize : Int) then v.toNat else none
  | none => none

/-- Model of strconv.ParseFloat: optional sign, decimal digits with optional
fraction and optional decimal exponent; hexadecimal floats, inf and NaN are
not modelled (no input of the claims reaches them).  The result is the exact
rational value of the literal. -/
def goParseFloat (s : String) : Option Rat :=
  let cs := s.data
  let (neg, cs) := match cs with
    | '-' :: rest => (true, rest)
    | '+' :: rest => (false, rest)
    | rest => (false, rest)
  let (intDs, cs) := readDigits cs
  let (fracDs, cs) := match cs with
    | '.' :: rest => readDigits rest
    | rest => ([], rest)
  if intDs.isEmpty && fracDs.isEmpty then none
  else
    let mantissa : Rat := (digitsToNat intDs : Rat) +
      (digitsToNat fracDs : Rat) / ((10 : Rat) ^ fracDs.length)
    let expPart : Option Rat := match cs with
      | [] => some 1
      | 'e' :: rest =>
        let (eneg, rest) := match rest with
          | '-' :: r => (true, r)
          | '+' :: r => (false, r)
          | r => (false, r)
        let (eds, tail) := readDigits rest
        if eds.isEmpty || !tail.isEmpty then none
        else some (if eneg then 1 / (10 : Rat) ^ digitsToNat eds else (10 : Rat) ^ digitsToNat eds)
      | 'E' :: rest =>
        let (eneg, rest) := match rest with
          | '-' :: r => (true, r)
          | '+' :: r => (false, r)
          | r => (false, r)
        let (eds, tail) := readDigits rest
        if eds.isEmpty || !tail.isEmpty then none
        else some (if eneg then 1 / (10 : Rat) ^ digitsToNat eds else (10 : Rat) ^ digitsToNat eds)
      | _ => none
    match expPart with
    | none => none
    | some e => some ((if neg then -mantissa else mantissa) * e)

/-- Validity of parsed civil date and clock fields, the range checks
performed by Go's time.Parse. -/
def validCivil (y mo d hh mi ss : Nat) : Bool :=
  1 ≤ mo && mo ≤ 12 && 1 ≤ d && (d : Int) ≤ daysInMonth y mo &&
    hh ≤ 23 && mi ≤ 59 && ss ≤ 59 && y ≤ 9999

/-- Reading of the date part YYYY-MM-DD. -/
def readDashedDate (cs : List Char) : Option (Nat × Nat × Nat × List Char) :=
  match readFixedNat 4 cs with
  | none => none
  | some (y, cs) =>
    match expectChar '-' cs with
    | none => none
    | some cs =>
      match readFixedNat 2 cs with
      | none => none
      | some (mo, cs) =>
        match expectChar '-' cs with
        | none => none
        | some cs =>
          match readFixedNat 2 cs with
          | none => none
          | some (d, cs) => some (y, mo, d, cs)

/-- Reading of the clock part HH:MM:SS. -/
def readClock (cs : List Char) : Option (Nat × Nat × Nat × List Char) :=
  match readFixedNat 2 cs with
  | none => none
  | some (hh, cs) =>
    match expectChar ':' cs with
    | none => none
    | some cs =>
      match readFixedNat 2 cs with
      | none => none
      | some (mi, cs) =>
        match expectChar ':' cs with
        | none => none
        | some cs =>
          match readFixedNat 2 cs with
          | none => none
          | some (ss, cs) => some (hh, mi, ss, cs)

/-- Parse against the primary layout 2006-01-02 15:04:05 (TimestampLayout). -/
def parsePrimaryLayout (s : String) : Option GoTime :=
  match readDashedDate s.data with
  | none => none
  | some (y, mo, d, cs) =>
    match expectChar ' ' cs with
    | none => none
    | some cs =>
      match readClock cs with
      | none => none
      | some (hh, mi, ss, cs) =>
        if cs.isEmpty && validCivil y mo d hh mi ss then
          some (mkUTCTime y mo d hh mi ss 0)
        else none

/-- Parse against the date-only layout 2006-01-02. -/
def parseDateOnlyLayout (s : String) : Option GoTime :=
  match readDashedDate s.data with
  | none => none
  | some (y, mo, d, cs) =>
    if cs.isEmpty && validCivil y mo d 0 0 0 then
      some (mkUTCTime y mo d 0 0 0 0)
    else none

/-- Reading of an optional fractional second, accepted by Go's Parse when
the input has one even though the layout does not: a period followed by one
to nine digits, scaled to nanoseconds. -/
def readOptionalFraction (cs : List Char) : Option (Nat × List Char) :=
  match cs with
  | '.' :: rest =>
    let (ds, tail) := readDigits rest
    if ds.isEmpty || ds.length > 9 then none
    else some (digitsToNat ds * 10 ^ (9 - ds.length), tail)
  | rest => some (0, rest)

/-- Reading of a zone offset body hh:mm with the usual range checks. -/
def readClock2 (cs : List Char) : Option (Nat × Nat × List Char) :=
  match readFixedNat 2 cs with
  | none => none
  | some (oh, cs) =>
    match expectChar ':' cs with
    | none => none
    | some cs =>
      match readFixedNat 2 cs with
      | none => none
      | some (om, cs) => if oh ≤ 23 && om ≤ 59 then some (oh, om, cs) else none

/-- Parse against the RFC3339 layout 2006-01-02T15:04:05Z07:00: date, the
literal T, a clock, an optional fraction, and a zone that is either Z or a
signed hh:mm offset. -/
def parseRFC3339Layout (s : String) : Option GoTime :=
  match readDashedDate s.data with
  | none => none
  | some (y, mo, d, cs) =>
    match expectChar 'T' cs with
    | none => none
    | some cs =>
      match readClock cs with
      | none => none
      | some (hh, mi, ss, cs) =>
        match readOptionalFraction cs with
        | none => none
        | some (nsec, cs) =>
          let zone : Option (Option Int × List Char) := match cs with
            | 'Z' :: rest => some (none, rest)
            | '+' :: rest =>
              match readClock2 rest with
              | some (oh, om, rest) => some (some ((oh * 3600 + om * 60 : Nat) : Int), rest)
              | none => none
            | '-' :: rest =>
              match readClock2 rest with
              | some (oh, om, rest) => some (some (-((oh * 3600 + om * 60 : Nat) : Int)), rest)
              | none => none
            | _ => none
          match zone with
          | none => none
          | some (off, cs) =>
            if cs.isEmpty && validCivil y mo d hh mi ss then
              match off with
              | none => some (mkUTCTime y mo d hh mi ss nsec)
              | some o =>
                some ⟨(mkUTCTime y mo d hh mi ss nsec).epoch - o, nsec, .offset o⟩
            else none

/-- Parse against the compact layout 20060102150405. -/
def parseCompact14Layout (s : String) : Option GoTime :=
  match readFixedNat 4 s.data with
  | none => none
  | some (y, cs) =>
    match readFixedNat 2 cs with
    | none => none
    | some (mo, cs) =>
      match readFixedNat 2 cs with
      | none => none
      | some (d, cs) =>
        match readFixedNat 2 cs with
        | none => none
        | some (hh, cs) =>
          match readFixedNat 2 cs with
          | none => none
          | some (mi, cs) =>
            match readFixedNat 2 cs with
            | none => none
            | some (ss, cs) =>
              if cs.isEmpty && validCivil y mo d hh mi ss then
                some (mkUTCTime y mo d hh mi ss 0)
              else none

/-- Parse against the compact date layout 20060102. -/
def parseCompact8Layout (s : String) : Option GoTime :=
  match readFixedNat 4 s.data with
  | none => none
  | some (y, cs) =>
    match readFixedNat 2 cs with
    | none => none
    | some (mo, cs) =>
      match readFixedNat 2 cs with
      | none => none
      | some (d, cs) =>
        if cs.isEmpty && validCivil y mo d 0 0 0 then
          some (mkUTCTime y mo d 0 0 0 0)
        else none

/-- UTF-8 encoding of one character. -/
def utf8EncodeChar (c : Char) : List Nat :=
  let n := c.toNat
  if n < 0x80 then [n]
  else if n < 0x800 then [0xC0 + n / 0x40, 0x80 + n % 0x40]
  else if n < 0x10000 then [0xE0 + n / 0x1000, 0x80 + (n / 0x40) % 0x40, 0x80 + n % 0x40]
  else [0xF0 + n / 0x40000, 0x80 + (n / 0x1000) % 0x40, 0x80 + (n / 0x40) % 0x40, 0x80 + n % 0x40]

/-- Byte sequence of a Go string, which is its UTF-8 encoding for the
strings this layer constructs. -/
def utf8Encode (s : String) : List Nat :=
  s.data.foldr (fun c acc => utf8EncodeChar c ++ acc) []

/-- Continuation byte predicate. -/
def isCont (b : Nat) : Bool := 0x80 ≤ b && b < 0xC0

/-- Decoding of a byte sequence back to characters with a step budget, used
to model the Go conversion string(bytes); ill-formed sequences decode to
U+FFFD the way Go's range-over-string does. -/
def utf8DecodeAux : Nat → List Nat → List Char
  | 0, _ => []
  | _ + 1, [] => []
  | fuel + 1, b :: rest =>
    if b < 0x80 then Char.ofNat b :: utf8DecodeAux fuel rest
    else if 0xC0 ≤ b && b < 0xE0 then
      match rest with
      | b2 :: r2 =>
        if isCont b2 then Char.ofNat ((b - 0xC0) * 0x40 + (b2 - 0x80)) :: utf8DecodeAux fuel r2
        else Char.ofNat 0xFFFD :: utf8DecodeAux fuel rest
      | [] => [Char.ofNat 0xFFFD]
    else if 0xE0 ≤ b && b < 0xF0 then
      match rest with
      | b2 :: b3 :: r3 =>
        if isCont b2 && isCont b3 then
          Char.ofNat ((b - 0xE0) * 0x1000 + (b2 - 0x80) * 0x40 + (b3 - 0x80)) :: utf8DecodeAux fuel r3
        else Char.ofNat 0xFFFD :: utf8DecodeAux fuel rest
      | _ => [Char.ofNat 0xFFFD]
    else if 0xF0 ≤ b && b < 0xF8 then
      match rest with
      | b2 :: b3 :: b4 :: r4 =>
        if isCont b2 && isCont b3 && isCont b4 then
          Char.ofNat ((b - 0xF0) * 0x40000 + (b2 - 0x80) * 0x1000 + (b3 - 0x80) * 0x40 + (b4 - 0x80)) ::
            utf8DecodeAux fuel r4
        else Char.ofNat 0xFFFD :: utf8DecodeAux fuel rest
      | _ => [Char.ofNat 0xFFFD]
    else Char.ofNat 0xFFFD :: utf8DecodeAux fuel rest

/-- Lean string from Go bytes. -/
def bytesToStr (bs : List Nat) : String := String.mk (utf8DecodeAux bs.length bs)

/-- Character of the standard base64 alphabet. -/
def base64Char (n : Nat) : Char :=
  if n < 26 then Char.ofNat (65 + n)
  else if n < 52 then Char.ofNat (97 + (n - 26))
  else if n < 62 then Char.ofNat (48 + (n - 52))
  else if n = 62 then '+'
  else '/'

/-- Standard base64 encoding with padding, the encoding encoding/json uses
for byte slices. -/
def base64Encode : List Nat → List Char
  | b1 :: b2 :: b3 :: rest =>
    let g := (b1 % 256) * 65536 + (b2 % 256) * 256 + b3 % 256
    base64Char (g / 262144) :: base64Char ((g / 4096) % 64) ::
      base64Char ((g / 64) % 64) :: base64Char (g % 64) :: base64Encode rest
  | [b1, b2] =>
    let g := (b1 % 256) * 65536 + (b2 % 256) * 256
    [base64Char (g / 262144), base64Char ((g / 4096) % 64), base64Char ((g / 64) % 64), '=']
  | [b1] =>
    let g := (b1 % 256) * 65536
    [base64Char (g / 262144), base64Char ((g / 4096) % 64), '=', '=']
  | [] => []

/-- Decimal digits of the fractional part of a nonnegative rational below
one; the fuel bounds the number of digits, enough for every terminating
decimal a Go float formats to. -/
def decimalDigitsAux : Nat → Rat → List Char
  | 0, _ => []
  | fuel + 1, q =>
    if q = 0 then []
    else
      let d := (q * 10).floor
      Char.ofNat (48 + d.toNat) :: decimalDigitsAux fuel (q * 10 - (d : Rat))

/-- Model of strconv.FormatFloat(f, f, -1, 64): sign, integer part, and the
shortest fractional expansion; exact for the terminating decimals the
embedding works with. -/
def goFormatFloat (q : Rat) : String :=
  let sign := if q < 0 then "-" else ""
  let a := |q|
  let ip := a.floor
  let ds := decimalDigitsAux 64 (a - (ip : Rat))
  sign ++ toString ip ++ (if ds.isEmpty then "" else "." ++ String.mk ds)

/-- Zero padding of a nonnegative integer to two digits. -/
def pad2i (i : Int) : String := if i < 10 then "0" ++ toString i else toString i

/-- Zero padding of a nonnegative integer to four digits. -/
def pad4i (i : Int) : String :=
  if i < 10 then "000" ++ toString i
  else if i < 100 then "00" ++ toString i
  else if i < 1000 then "0" ++ toString i
  else toString i

/-- Civil fields (year, month, day, hour, minute, second) of a time in its
own location. -/
def civilOfTime (t : GoTime) : Int × Int × Int × Int × Int × Int :=
  let localE := t.epoch + t.loc.offsetSec
  let day := epochDay localE
  let sod := secondOfDay localE
  let c := civilFromDays day
  (c.1, c.2.1, c.2.2, Int.fdiv sod 3600, Int.fdiv sod 60 % 60, sod % 60)

/-- Format with the date layout 2006-01-02 (DateLayout). -/
def formatDateLayout (t : GoTime) : String :=
  let c := civilOfTime t
  pad4i c.1 ++ "-" ++ pad2i c.2.1 ++ "-" ++ pad2i c.2.2.1

/-- Format with the clock part of the primary layout. -/
def formatClock (t : GoTime) : String :=
  let c := civilOfTime t
  pad2i c.2.2.2.1 ++ ":" ++ pad2i c.2.2.2.2.1 ++ ":" ++ pad2i c.2.2.2.2.2

/-- Format with the primary layout 2006-01-02 15:04:05 (TimestampLayout). -/
def formatTimestampLayout (t : GoTime) : String :=
  formatDateLayout t ++ " " ++ formatClock t

/-- Fractional-second suffix with trailing zeros trimmed, empty when the
nanosecond part is zero. -/
def fracSuffix (nsec : Nat) : String :=
  if nsec = 0 then ""
  else
    let padded := (List.replicate (9 - (toString nsec).length) '0').asString ++ toString nsec
    "." ++ (padded.data.reverse.dropWhile (fun c => c = '0')).reverse.asString

/-- Format of the RFC3339Nano layout used by time.Time's JSON marshalling. -/
def formatRFC3339Nano (t : GoTime) : String :=
  let zone := match t.loc with
    | .utc => "Z"
    | .offset o =>
      let sign := if o < 0 then "-" else "+"
      sign ++ pad2i (Int.fdiv o.natAbs 3600) ++ ":" ++ pad2i (Int.fdiv o.natAbs 60 % 60)
  formatDateLayout t ++ "T" ++ formatClock t ++ fracSuffix t.nsec ++ zone

/-- Rendering of time.Time's String method (layout 2006-01-02 15:04:05.999999999
-0700 MST), with the zone abbreviation simplified to the offset form for the
fixed-offset locations this embedding constructs. -/
def goTimeString (t : GoTime) : String :=
  let o := t.loc.offsetSec
  let sign := if o < 0 then "-" else "+"
  let zone := sign ++ pad2i (Int.fdiv o.natAbs 3600) ++ pad2i (Int.fdiv o.natAbs 60 % 60)
  let name := match t.loc with
    | .utc => " UTC"
    | .offset _ => ""
  formatTimestampLayout t ++ fracSuffix t.nsec ++ " " ++ zone ++ name

/-- Number with an optional trimmed fraction of the given digit width, a
building block of Duration's String method. -/
def decWithFrac (ip frac digits : Nat) : String :=
  if frac = 0 then toString ip
  else
    let padded := (List.replicate (digits - (toString frac).length) '0').asString ++ toString frac
    toString ip ++ "." ++ (padded.data.reverse.dropWhile (fun c => c = '0')).reverse.asString

/-- Rendering of time.Duration's String method. -/
def goDurationString (d : Int) : String :=
  if d = 0 then "0s"
  else
    let sign := if d < 0 then "-" else ""
    let a := d.natAbs
    if a < 1000 then sign ++ toString a ++ "ns"
    else if a < 1000000 then sign ++ decWithFrac (a / 1000) (a % 1000) 3 ++ "µs"
    else if a < 1000000000 then sign ++ decWithFrac (a / 1000000) (a % 1000000) 6 ++ "ms"
    else
      let sec := a / 1000000000
      let ns := a % 1000000000
      let secStr := decWithFrac (sec % 60) ns 9 ++ "s"
      let m := sec / 60
      if m = 0 then sign ++ secStr
      else
        let mStr := toString (m % 60) ++ "m" ++ secStr
        let h := m / 60
        if h = 0 then sign ++ mStr else sign ++ toString h ++ "h" ++ mStr

/-- Coercions of the spf13/cast library as the source uses them, embedded
from that library's semantics on the dynamic types of GoValue.  ToInt64E:
every Go integer kind converts with 64-bit wrap, floats truncate toward
zero, strings parse as base-0 integers, booleans map to 0/1 and a nil
interface maps to 0; everything else is an error. -/
def GoCast.ToInt64E : GoValue → Outcome Int
  | .int i | .int8 i | .int16 i | .int32 i | .int64 i => .ok i
  | .uint n | .uint64 n => .ok (wrapS 64 (n : Int))
  | .uint8 n | .uint16 n | .uint32 n => .ok (n : Int)
  | .float32 q | .float64 q => .ok (wrapS 64 (truncRat q))
  | .str s =>
    match goParseIntBase0 64 s with
    | some v => .ok v
    | none => .err (.castError ("unable to cast string to int64: " ++ s))
  | .boolean b => .ok (if b then 1 else 0)
  | .nilv => .ok 0
  | v => .err (.castError ("unable to cast " ++ goTypeNameStr v ++ " to int64"))

/-- ToUint64E of spf13/cast: negative signed inputs are rejected, floats
below zero are rejected, strings parse as base-0 unsigned integers. -/
def GoCast.ToUint64E : GoValue → Outcome Nat
  | .int i | .int8 i | .int16 i | .int32 i | .int64 i =>
    if i < 0 then .err (.castError "unable to cast negative value to uint64")
    else .ok i.toNat
  | .uint n | .uint8 n | .uint16 n | .uint32 n | .uint64 n => .ok n
  | .float32 q | .float64 q =>
    if q < 0 then .err (.castError "unable to cast negative value to uint64")
    else .ok (wrapU 64 (truncRat q))
  | .str s =>
    match goParseUintBase0 64 s with
    | some v => .ok v
    | none => .err (.castError ("unable to cast string to uint64: " ++ s))
  | .boolean b => .ok (if b then 1 else 0)
  | .nilv => .ok 0
  | v => .err (.castError ("unable to cast " ++ goTypeNameStr v ++ " to uint64"))

/-- ToInt32E of spf13/cast: like ToInt64E followed by Go's wrapping
conversion int32(v). -/
def GoCast.ToInt32E (v : GoValue) : Outcome Int :=
  (GoCast.ToInt64E v).map (wrapS 32)

/-- ToUint32E of spf13/cast: negative inputs are rejected, then the value
wraps to 32 bits; string inputs parse with a 32-bit range check. -/
def GoCast.ToUint32E : GoValue → Outcome Nat
  | .int i | .int8 i | .int16 i | .int32 i | .int64 i =>
    if i < 0 then .err (.castError "unable to cast negative value to uint32")
    else .ok (wrapU 32 i)
  | .uint n | .uint8 n | .uint16 n | .uint32 n | .uint64 n => .ok (wrapU 32 (n : Int))
  | .float32 q | .float64 q =>
    if q < 0 then .err (.castError "unable to cast negative value to uint32")
    else .ok (wrapU 32 (truncRat q))
  | .str s =>
    match goParseUintBase0 32 s with
    | some v => .ok v
    | none => .err (.castError ("unable to cast string to uint32: " ++ s))
  | .boolean b => .ok (if b then 1 else 0)
  | .nilv => .ok 0
  | v => .err (.castError ("unable to cast " ++ goTypeNameStr v ++ " to uint32"))

/-- ToFloat64E of spf13/cast: numeric kinds convert exactly, strings parse
as floats, booleans map to 0/1; everything else (including nil) errors. -/
def GoCast.ToFloat64E : GoValue → Outcome Rat
  | .int i | .int8 i | .int16 i | .int32 i | .int64 i => .ok (i : Rat)
  | .uint n | .uint8 n | .uint16 n | .uint32 n | .uint64 n => .ok (n : Rat)
  | .float32 q | .float64 q => .ok q
  | .str s =>
    match goParseFloat s with
    | some q => .ok q
    | none => .err (.castError ("unable to cast string to float64: " ++ s))
  | .boolean b => .ok (if b then 1 else 0)
  | v => .err (.castError ("unable to cast " ++ goTypeNameStr v ++ " to float64"))

/-- ToFloat32E of spf13/cast; the final float32 narrowing carries the same
rational payload since representation rounding is not observable by any
operation of this layer. -/
def GoCast.ToFloat32E (v : GoValue) : Outcome Rat :=
  GoCast.ToFloat64E v

/-- Rendering of the String method of the nullT sentinel. -/
def nullT.String : String := "NULL"

/-- ToStringE of spf13/cast: strings pass through, numerics and booleans
render in their canonical decimal forms, byte slices convert to a string,
nil renders empty, and values with a String method (time.Time,
time.Duration, and the nullT sentinel here) take the fmt.Stringer case and
use that rendering; everything else errors. -/
def GoCast.ToStringE : GoValue → Outcome String
  | .str s => .ok s
  | .boolean b => .ok (if b then "true" else "false")
  | .float32 q | .float64 q => .ok (goFormatFloat q)
  | .int i | .int8 i | .int16 i | .int32 i | .int64 i => .ok (toString i)
  | .uint n | .uint8 n | .uint16 n | .uint32 n | .uint64 n => .ok (toString n)
  | .bytes bs => .ok (bytesToStr bs)
  | .nilv => .ok ""
  | .time t => .ok (goTimeString t)
  | .duration d => .ok (goDurationString d)
  | .nullv => .ok nullT.String
  | v => .err (.castError ("unable to cast " ++ goTypeNameStr v ++ " to string"))

/-- Document values of encoding/json when unmarshalled into an empty
interface: null, booleans, numbers (float64, modelled as exact rationals),
strings, arrays, and objects.  Objects model map[string]interface{}, so the
parser stores their fields sorted by key with duplicates resolved to the
last occurrence, which is exactly the information the map retains. -/
inductive GoJson where
  | null
  | bool (b : Bool)
  | num (q : Rat)
  | str (s : String)
  | arr (xs : List GoJson)
  | obj (fields : List (String × GoJson))

/-- JSON whitespace predicate. -/
def isJsonWs (c : Char) : Bool := c = ' ' || c = '\t' || c = '\n' || c = '\r'

/-- Escaping of one character as Go's encoder does, including the HTML
escapes for the angle brackets and ampersand. -/
def escapeJsonChar (c : Char) : String :=
  if c = '"' then "\\\""
  else if c = '\\' then "\\\\"
  else if c = '\n' then "\\n"
  else if c = '\r' then "\\r"
  else if c = '\t' then "\\t"
  else if c = '<' then "\\u003c"
  else if c = '>' then "\\u003e"
  else if c = '&' then "\\u0026"
  else if c.toNat < 0x20 then
    "\\u00" ++ (if c.toNat < 16 then "0" else "1") ++
      String.mk [Char.ofNat (if c.toNat % 16 < 10 then 48 + c.toNat % 16 else 87 + c.toNat % 16)]
  else String.mk [c]

/-- Quoted, escaped JSON encoding of a string. -/
def quoteJsonString (s : String) : String :=
  "\"" ++ String.join (s.data.map escapeJsonChar) ++ "\""

/-- Sorting of object fields by key with stable order, keeping the last
occurrence of a duplicated key, the observable content of a Go map. -/
def sortDedupFields (fs : List (String × GoJson)) : List (String × GoJson) :=
  let sorted := fs.mergeSort (fun a b => a.1 ≤ b.1)
  let dedup := sorted.foldr
    (fun f acc => match acc with
      | [] => [f]
      | g :: _ => if f.1 = g.1 then acc else f :: acc) []
  dedup

mutual

/-- Marshalling of a JSON document to its canonical encoded text, as Go's
encoder renders documents held in an empty interface. -/
def goJsonMarshalDoc : GoJson → String
  | .null => "null"
  | .bool b => if b then "true" else "false"
  | .num q => goFormatFloat q
  | .str s => quoteJsonString s
  | .arr xs => "[" ++ goJsonMarshalArr xs ++ "]"
  | .obj fs => "\x7b" ++ goJsonMarshalObj fs ++ "\x7d"

/-- Comma-joined marshalling of array elements. -/
def goJsonMarshalArr : List GoJson → String
  | [] => ""
  | [x] => goJsonMarshalDoc x
  | x :: y :: xs => goJsonMarshalDoc x ++ "," ++ goJsonMarshalArr (y :: xs)

/-- Comma-joined marshalling of object fields. -/
def goJsonMarshalObj : List (String × GoJson) → String
  | [] => ""
  | [f] => quoteJsonString f.1 ++ ":" ++ goJsonMarshalDoc f.2
  | f :: g :: fs => quoteJsonString f.1 ++ ":" ++ goJsonMarshalDoc f.2 ++ "," ++ goJsonMarshalObj (g :: fs)

end

/-- Parsing of a JSON string body after the opening quote, with a step
budget; yields the string and the rest after the closing quote.  A \-u escape
decodes to its code point (surrogate pair combination is not modelled; no
input of the claims contains one). -/
def parseJsonStringAux : Nat → List Char → List Char → Option (String × List Char)
  | 0, _, _ => none
  | _ + 1, acc, '"' :: rest => some (String.mk acc.reverse, rest)
  | fuel + 1, acc, '\\' :: c :: rest =>
    if c = '"' then parseJsonStringAux fuel ('"' :: acc) rest
    else if c = '\\' then parseJsonStringAux fuel ('\\' :: acc) rest
    else if c = '/' then parseJsonStringAux fuel ('/' :: acc) rest
    else if c = 'b' then parseJsonStringAux fuel (Char.ofNat 8 :: acc) rest
    else if c = 'f' then parseJsonStringAux fuel (Char.ofNat 12 :: acc) rest
    else if c = 'n' then parseJsonStringAux fuel ('\n' :: acc) rest
    else if c = 'r' then parseJsonStringAux fuel ('\r' :: acc) rest
    else if c = 't' then parseJsonStringAux fuel ('\t' :: acc) rest
    else if c = 'u' then
      match rest with
      | h1 :: h2 :: h3 :: h4 :: r4 =>
        let hexVal := fun (h : Char) =>
          if h.isDigit then some (digitVal h)
          else if 'a' ≤ h && h ≤ 'f' then some (h.toNat - 87)
          else if 'A' ≤ h && h ≤ 'F' then some (h.toNat - 55)
          else none
        match hexVal h1, hexVal h2, hexVal h3, hexVal h4 with
        | some a, some b, some cc, some d =>
          parseJsonStringAux fuel (Char.ofNat (a * 4096 + b * 256 + cc * 16 + d) :: acc) r4
        | _, _, _, _ => none
      | _ => none
    else none
  | fuel + 1, acc, c :: rest =>
    if c.toNat < 0x20 then none else parseJsonStringAux fuel (c :: acc) rest
  | _ + 1, _, [] => none

/-- Parsing of a JSON number: optional minus, an integer part without
leading zeros, optional fraction and exponent; the exact rational value is
returned. -/
def parseJsonNumber (cs : List Char) : Option (Rat × List Char) :=
  let (neg, cs1) := match cs with
    | '-' :: rest => (true, rest)
    | rest => (false, rest)
  let (intDs, cs2) := readDigits cs1
  if intDs.isEmpty then none
  else if intDs.length > 1 && intDs.headD '0' = '0' then none
  else
    let (fracDs, cs3) := match cs2 with
      | '.' :: rest => readDigits rest
      | rest => ([], rest)
    if (match cs2 with | '.' :: _ => fracDs.isEmpty | _ => false) then none
    else
      let mantissa : Rat := (digitsToNat intDs : Rat) +
        (digitsToNat fracDs : Rat) / ((10 : Rat) ^ fracDs.length)
      match cs3 with
      | 'e' :: rest =>
        let (eneg, rest2) := match rest with
          | '-' :: r => (true, r)
          | '+' :: r => (false, r)
          | r => (false, r)
        let (eds, cs4) := readDigits rest2
        if eds.isEmpty then none
        else
          let scale : Rat := if eneg then 1 / (10 : Rat) ^ digitsToNat eds else (10 : Rat) ^ digitsToNat eds
          some ((if neg then -mantissa else mantissa) * scale, cs4)
      | 'E' :: rest =>
        let (eneg, rest2) := match rest with
          | '-' :: r => (true, r)
          | '+' :: r => (false, r)
          | r => (false, r)
        let (eds, cs4) := readDigits rest2
        if eds.isEmpty then none
        else
          let scale : Rat := if eneg then 1 / (10 : Rat) ^ digitsToNat eds else (10 : Rat) ^ digitsToNat eds
          some ((if neg then -mantissa else mantissa) * scale, cs4)
      | _ => some ((if neg then -mantissa else mantissa), cs3)

mutual

/-- Parsing of one JSON value with a step budget, skipping leading
whitespace, as json.Unmarshal into an empty interface reads it. -/
def parseJsonVal : Nat → List Char → Option (GoJson × List Char)
  | 0, _ => none
  | fuel + 1, cs =>
    match cs.dropWhile isJsonWs with
    | 'n' :: 'u' :: 'l' :: 'l' :: rest => some (.null, rest)
    | 't' :: 'r' :: 'u' :: 'e' :: rest => some (.bool true, rest)
    | 'f' :: 'a' :: 'l' :: 's' :: 'e' :: rest => some (.bool false, rest)
    | '"' :: rest =>
      match parseJsonStringAux rest.length rest [] with
      | some (s, rest2) => some (.str s, rest2)
      | none => none
    | '[' :: rest =>
      match (rest.dropWhile isJsonWs) with
      | ']' :: rest2 => some (.arr [], rest2)
      | _ =>
        match parseJsonArrayItems fuel rest with
        | some (xs, rest2) => some (.arr xs, rest2)
        | none => none
    | '{' :: rest =>
      match (rest.dropWhile isJsonWs) with
      | '}' :: rest2 => some (.obj [], rest2)
      | _ =>
        match parseJsonObjItems fuel rest with
        | some (fs, rest2) => some (.obj (sortDedupFields fs), rest2)
        | none => none
    | rest =>
      match parseJsonNumber rest with
      | some (q, rest2) => some (.num q, rest2)
      | none => none

/-- Parsing of one or more comma separated array elements up to the closing
bracket. -/
def parseJsonArrayItems : Nat → List Char → Option (List GoJson × List Char)
  | 0, _ => none
  | fuel + 1, cs =>
    match parseJsonVal fuel cs with
    | none => none
    | some (x, rest) =>
      match rest.dropWhile isJsonWs with
      | ',' :: rest2 =>
        match parseJsonArrayItems fuel rest2 with
        | some (xs, rest3) => some (x :: xs, rest3)
        | none => none
      | ']' :: rest2 => some ([x], rest2)
      | _ => none

/-- Parsing of one or more comma separated object members up to the closing
brace. -/
def parseJsonObjItems : Nat → List Char → Option (List (String × GoJson) × List Char)
  | 0, _ => none
  | fuel + 1, cs =>
    match cs.dropWhile isJsonWs with
    | '"' :: rest =>
      match parseJsonStringAux rest.length rest [] with
      | none => none
      | some (k, rest2) =>
        match rest2.dropWhile isJsonWs with
        | ':' :: rest3 =>
          match parseJsonVal fuel rest3 with
          | none => none
          | some (v, rest4) =>
            match rest4.dropWhile isJsonWs with
            | ',' :: rest5 =>
              match parseJsonObjItems fuel rest5 with
              | some (fs, rest6) => some ((k, v) :: fs, rest6)
              | none => none
            | '}' :: rest5 => some ([(k, v)], rest5)
            | _ => none
        | _ => none
    | _ => none

end

/-- Model of json.Unmarshal of a whole string into an empty interface:
one value followed only by whitespace. -/
def goJsonParse (s : String) : Option GoJson :=
  match parseJsonVal (s.length + 1) s.data with
  | some (doc, rest) => if (rest.dropWhile isJsonWs).isEmpty then some doc else none
  | none => none

mutual

/-- Model of json.Marshal applied to an interface value: strings encode
quoted and escaped, numerics in decimal, byte slices in base64, times in the
RFC3339Nano layout, durations as their integer nanosecond count, slices as
arrays, the nullT struct as an empty object; a nil interface encodes as
null, and a Generator value is not serializable. -/
def goMarshalValue : GoValue → Outcome String
  | .nilv => .ok "null"
  | .boolean b => .ok (if b then "true" else "false")
  | .int i | .int8 i | .int16 i | .int32 i | .int64 i => .ok (toString i)
  | .uint n | .uint8 n | .uint16 n | .uint32 n | .uint64 n => .ok (toString n)
  | .float32 q | .float64 q => .ok (goFormatFloat q)
  | .str s => .ok (quoteJsonString s)
  | .bytes bs => .ok ("\"" ++ String.mk (base64Encode bs) ++ "\"")
  | .time t => .ok (quoteJsonString (formatRFC3339Nano t))
  | .duration d => .ok (toString d)
  | .list vs => (goMarshalValueList vs).map (fun s => "[" ++ s ++ "]")
  | .gen _ _ _ => .err (.genericError "json: unsupported type")
  | .nullv => .ok "\x7b\x7d"
  | .other n => .err (.genericError ("json: unsupported type: " ++ n))

/-- Comma-joined marshalling of slice elements. -/
def goMarshalValueList : List GoValue → Outcome String
  | [] => .ok ""
  | [v] => goMarshalValue v
  | v :: w :: vs =>
    match goMarshalValue v with
    | .ok s =>
      match goMarshalValueList (w :: vs) with
      | .ok s2 => .ok (s ++ "," ++ s2)
      | o => o
    | o => o

end

/-- Width and signedness tag of the numberT variant, the query.Type it
stores. -/
inductive NumKind where
  | i8 | u8 | i16 | u16 | i32 | u32 | i64 | u64 | f32 | f64
  deriving DecidableEq, Repr

/-- Rendering of the query.Type tag of a numeric variant, used in the
InvalidType error message. -/
def NumKind.queryTypeName : NumKind → String
  | .i8 => "INT8"
  | .u8 => "UINT8"
  | .i16 => "INT16"
  | .u16 => "UINT16"
  | .i32 => "INT32"
  | .u32 => "UINT32"
  | .i64 => "INT64"
  | .u64 => "UINT64"
  | .f32 => "FLOAT32"
  | .f64 => "FLOAT64"

/-- Wire type tags of the sqltypes/query enumeration that this layer uses. -/
inductive QueryType where
  | null | int8 | uint8 | int16 | uint16 | int32 | uint32 | int64 | uint64
  | float32 | float64 | timestamp | date | text | varchar | bit | typeJson
  | blob | expression
  deriving DecidableEq, Repr

/-- SQL types of the layer: the closed set of Type variants of sql/type.go.
Non-composite variants are singletons; tuple carries its component types and
array its underlying type. -/
inductive SQLType where
  | null
  | number (k : NumKind)
  | timestamp
  | date
  | text
  | boolean
  | blob
  | json
  | tuple (ts : List SQLType)
  | array (underlying : SQLType)

/-- Singleton Int8 of the registry. -/
def Int8 : SQLType := .number .i8

/-- Singleton Uint8 of the registry. -/
def Uint8 : SQLType := .number .u8

/-- Singleton Int16 of the registry. -/
def Int16 : SQLType := .number .i16

/-- Singleton Uint16 of the registry. -/
def Uint16 : SQLType := .number .u16

/-- Singleton Int32 of the registry. -/
def Int32 : SQLType := .number .i32

/-- Singleton Uint32 of the registry. -/
def Uint32 : SQLType := .number .u32

/-- Singleton Int64 of the registry. -/
def Int64 : SQLType := .number .i64

/-- Singleton Uint64 of the registry. -/
def Uint64 : SQLType := .number .u64

/-- Singleton Float32 of the registry. -/
def Float32 : SQLType := .number .f32

/-- Singleton Float64 of the registry. -/
def Float64 : SQLType := .number .f64

/-- Singleton Timestamp of the registry. -/
def Timestamp : SQLType := .timestamp

/-- Singleton Date of the registry. -/
def Date : SQLType := .date

/-- Singleton Text of the registry. -/
def Text : SQLType := .text

/-- Singleton Boolean of the registry. -/
def Boolean : SQLType := .boolean

/-- Singleton JSON of the registry. -/
def JSON : SQLType := .json

/-- Singleton Blob of the registry. -/
def Blob : SQLType := .blob

/-- Constructor Tuple of a tuple type from its element types. -/
def Tuple (types : List SQLType) : SQLType := .tuple types

/-- Constructor Array of an array type from its underlying type. -/
def Array (underlying : SQLType) : SQLType := .array underlying

/-- Predicate IsSigned: only the 32 and 64 bit signed widths. -/
def IsSigned : SQLType → Bool
  | .number .i32 | .number .i64 => true
  | _ => false

/-- Predicate IsUnsigned: only the 32 and 64 bit unsigned widths. -/
def IsUnsigned : SQLType → Bool
  | .number .u32 | .number .u64 => true
  | _ => false

/-- Predicate IsInteger: signed or unsigned. -/
def IsInteger (t : SQLType) : Bool := IsSigned t || IsUnsigned t

/-- Predicate IsDecimal: either float width. -/
def IsDecimal : SQLType → Bool
  | .number .f32 | .number .f64 => true
  | _ => false

/-- Predicate IsNumber: integer or decimal. -/
def IsNumber (t : SQLType) : Bool := IsInteger t || IsDecimal t

/-- Predicate IsTime: timestamp or date. -/
def IsTime : SQLType → Bool
  | .timestamp | .date => true
  | _ => false

/-- Predicate IsText: text, blob or json. -/
def IsText : SQLType → Bool
  | .text | .blob | .json => true
  | _ => false

/-- Predicate IsTuple: a tuple variant of arity above one. -/
def IsTuple : SQLType → Bool
  | .tuple ts => ts.length > 1
  | _ => false

/-- Predicate IsArray. -/
def IsArray : SQLType → Bool
  | .array _ => true
  | _ => false

/-- Number of columns of a type: tuple arity, otherwise one. -/
def NumColumns : SQLType → Nat
  | .tuple ts => ts.length
  | _ => 1

/-- Underlying type of an array, otherwise the type itself. -/
def UnderlyingType : SQLType → SQLType
  | .array u => u
  | t => t

/-- Convert of nullT: only the nil interface is accepted and passes
through. -/
def nullT.Convert : GoValue → Outcome GoValue
  | .nilv => .ok .nilv
  | _ => .err .valueNotNil

/-- Instant produced by time.Unix(sec, 0); only its UTC image is observed
by this layer, so the location is taken as UTC directly. -/
def timeUnix (sec : Int) : GoTime := ⟨sec, 0, .utc⟩

/-- Convert of numberT: a time.Time input is first replaced by its
Unix-epoch-seconds int64; then the 32/64-bit widths dispatch to the
corresponding cast coercion, while the 8 and 16 bit widths fall into the
default branch and always fail with InvalidType. -/
def numberT.Convert (k : NumKind) (v0 : GoValue) : Outcome GoValue :=
  let v := match v0 with
    | .time t => .int64 t.unix
    | w => w
  match k with
  | .i32 => (GoCast.ToInt32E v).map .int32
  | .i64 => (GoCast.ToInt64E v).map .int64
  | .u32 => (GoCast.ToUint32E v).map .uint32
  | .u64 => (GoCast.ToUint64E v).map .uint64
  | .f32 => (GoCast.ToFloat32E v).map .float32
  | .f64 => (GoCast.ToFloat64E v).map .float64
  | .i8 => .err (.invalidType NumKind.i8.queryTypeName)
  | .u8 => .err (.invalidType NumKind.u8.queryTypeName)
  | .i16 => .err (.invalidType NumKind.i16.queryTypeName)
  | .u16 => .err (.invalidType NumKind.u16.queryTypeName)

/-- Signed comparison path: both operands are cast to int64 and compared
numerically. -/
def compareSigned (a b : GoValue) : Outcome Int :=
  match GoCast.ToInt64E a with
  | .err e => .err e
  | .panicked => .panicked
  | .ok ca =>
    match GoCast.ToInt64E b with
    | .err e => .err e
    | .panicked => .panicked
    | .ok cb => .ok (if ca = cb then 0 else if ca < cb then -1 else 1)

/-- Unsigned comparison path: both operands are cast to uint64 and compared
numerically. -/
def compareUnsigned (a b : GoValue) : Outcome Int :=
  match GoCast.ToUint64E a with
  | .err e => .err e
  | .panicked => .panicked
  | .ok ca =>
    match GoCast.ToUint64E b with
    | .err e => .err e
    | .panicked => .panicked
    | .ok cb => .ok (if ca = cb then 0 else if ca < cb then -1 else 1)

/-- Compare of numberT: the IsUnsigned classification decides the dispatch,
so every width it does not recognize takes the signed path. -/
def numberT.Compare (k : NumKind) (a b : GoValue) : Outcome Int :=
  if IsUnsigned (.number k) then compareUnsigned a b else compareSigned a b

/-- Ordered fallback layouts TimestampLayouts of the source, tried after
the primary layout. -/
inductive TsLayout where
  | primary | dateOnly | rfc3339 | compact14 | compact8
  deriving DecidableEq, Repr

/-- Dispatch of time.Parse on one layout. -/
def goTimeParse : TsLayout → String → Option GoTime
  | .primary, s => parsePrimaryLayout s
  | .dateOnly, s => parseDateOnlyLayout s
  | .rfc3339, s => parseRFC3339Layout s
  | .compact14, s => parseCompact14Layout s
  | .compact8, s => parseCompact8Layout s

/-- TimestampLayouts: date-only, the RFC3339 internet date, compact
YYYYMMDDHHMMSS and compact YYYYMMDD, in source order. -/
def TimestampLayouts : List TsLayout := [.dateOnly, .rfc3339, .compact14, .compact8]

/-- Loop of timestampT.Convert over the fallback layouts: the first layout
that parses wins. -/
def tryTimestampLayouts : List TsLayout → String → Option GoTime
  | [], _ => none
  | l :: ls, s =>
    match goTimeParse l s with
    | some t => some t
    | none => tryTimestampLayouts ls s

/-- Convert of timestampT: a time passes through normalized to UTC; a
string parses against the primary layout and then the fallback list; any
other input converts through Int64 and is read as Unix-epoch seconds. -/
def timestampT.Convert (v : GoValue) : Outcome GoValue :=
  match v with
  | .time t => .ok (.time t.toUTC)
  | .str s =>
    match goTimeParse .primary s with
    | some t => .ok (.time t.toUTC)
    | none =>
      match tryTimestampLayouts TimestampLayouts s with
      | some t => .ok (.time t.toUTC)
      | none => .err (.convertingToTime s)
  | _ =>
    match numberT.Convert .i64 v with
    | .ok (.int64 i) => .ok (.time (timeUnix i).toUTC)
    | .ok _ => .panicked
    | .err _ => .err (.invalidType (goTypeNameStr v))
    | .panicked => .panicked

/-- Ordering of instants, the Before relation of time.Time. -/
def timeBefore (a b : GoTime) : Bool :=
  a.epoch < b.epoch || (a.epoch = b.epoch && a.nsec < b.nsec)

/-- Compare of timestampT: chronological order of two times, with the type
assertions panicking on non-time operands. -/
def timestampT.Compare : GoValue → GoValue → Outcome Int
  | .time ta, .time tb =>
    if timeBefore ta tb then .ok (-1) else if timeBefore tb ta then .ok 1 else .ok 0
  | _, _ => .panicked

/-- Truncation of a time to a multiple of 24 hours since the zero time,
which coincides with the start of its UTC day. -/
def truncateDate (t : GoTime) : GoTime := ⟨Int.fdiv t.epoch 86400 * 86400, 0, t.loc⟩

/-- Convert of dateT: same strategy as timestampT but the string path uses
only the date layout, and every result is truncated to the start of its
day. -/
def dateT.Convert (v : GoValue) : Outcome GoValue :=
  match v with
  | .time t => .ok (.time (truncateDate t).toUTC)
  | .str s =>
    match parseDateOnlyLayout s with
    | some t => .ok (.time (truncateDate t).toUTC)
    | none => .err (.convertingToTime s)
  | _ =>
    match numberT.Convert .i64 v with
    | .ok (.int64 i) => .ok (.time (truncateDate (timeUnix i)).toUTC)
    | .ok _ => .panicked
    | .err _ => .err (.invalidType (goTypeNameStr v))
    | .panicked => .panicked

/-- Compare of dateT: both operands are truncated again and ordered
chronologically. -/
def dateT.Compare : GoValue → GoValue → Outcome Int
  | .time ta, .time tb =>
    let ta2 := truncateDate ta
    let tb2 := truncateDate tb
    if timeBefore ta2 tb2 then .ok (-1) else if timeBefore tb2 ta2 then .ok 1 else .ok 0
  | _, _ => .panicked

/-- Convert of textT: generic to-string coercion, with failure wrapped as
ConvertToSQL naming the type. -/
def textT.Convert (v : GoValue) : Outcome GoValue :=
  match GoCast.ToStringE v with
  | .ok s => .ok (.str s)
  | .err _ => .err (.convertToSQL "TEXT")
  | .panicked => .panicked

/-- Lexicographic comparison of byte sequences with a -1/0/1 result. -/
def listCompareNat : List Nat → List Nat → Int
  | [], [] => 0
  | [], _ :: _ => -1
  | _ :: _, [] => 1
  | a :: ar, b :: br =>
    if a < b then -1 else if b < a then 1 else listCompareNat ar br

/-- Compare of textT: byte-lexicographic string comparison, the semantics
of strings.Compare; the type assertions panic on non-string operands. -/
def textT.Compare : GoValue → GoValue → Outcome Int
  | .str a, .str b => .ok (listCompareNat (utf8Encode a) (utf8Encode b))
  | _, _ => .panicked

/-- Convert of booleanT, translated from its type switch.  The integer
kinds share one switch case, so the case variable keeps interface type and
the comparison against the untyped constant 0 boxes that constant as a
plain int: only a value of dynamic type int and value 0 compares equal, and
every other integer kind maps to true even when zero.  The float case also
shares one case arm and asserts the value to float64, so a float32 input
panics.  A string never parses, and a nil interface and every other kind
fail. -/
def booleanT.Convert : GoValue → Outcome GoValue
  | .boolean b => .ok (.boolean b)
  | .int i => .ok (.boolean (decide (i ≠ 0)))
  | .int8 _ | .int16 _ | .int32 _ | .int64 _ => .ok (.boolean true)
  | .uint _ | .uint8 _ | .uint16 _ | .uint32 _ | .uint64 _ => .ok (.boolean true)
  | .duration d => .ok (.boolean (decide (d ≠ 0)))
  | .time t => .ok (.boolean (decide (wrapS 64 (t.epoch * 1000000000 + (t.nsec : Int)) ≠ 0)))
  | .float32 _ => .panicked
  | .float64 q => .ok (.boolean (decide (wrapS 64 (goRound q) ≠ 0)))
  | .str _ => .err (.genericError "unable to cast string to bool")
  | .nilv => .err (.genericError "unable to cast nil to bool")
  | v => .err (.genericError ("unable to cast value of type " ++ goTypeNameStr v ++ " to bool"))

/-- Equality of two interface values as the Go == operator computes it:
values of different dynamic types are unequal, values of the same
comparable type compare componentwise, and comparing two values of the same
non-comparable dynamic type (slices, or the function-backed generators)
panics. -/
def goInterfaceEq : GoValue → GoValue → Outcome Bool
  | .nilv, .nilv => .ok true
  | .boolean a, .boolean b => .ok (a == b)
  | .int a, .int b => .ok (a == b)
  | .int8 a, .int8 b => .ok (a == b)
  | .int16 a, .int16 b => .ok (a == b)
  | .int32 a, .int32 b => .ok (a == b)
  | .int64 a, .int64 b => .ok (a == b)
  | .uint a, .uint b => .ok (a == b)
  | .uint8 a, .uint8 b => .ok (a == b)
  | .uint16 a, .uint16 b => .ok (a == b)
  | .uint32 a, .uint32 b => .ok (a == b)
  | .uint64 a, .uint64 b => .ok (a == b)
  | .float32 a, .float32 b => .ok (a == b)
  | .float64 a, .float64 b => .ok (a == b)
  | .str a, .str b => .ok (a == b)
  | .time a, .time b => .ok (a == b)
  | .duration a, .duration b => .ok (a == b)
  | .nullv, .nullv => .ok true
  | .bytes _, .bytes _ => .panicked
  | .list _, .list _ => .panicked
  | .gen _ _ _, .gen _ _ _ => .panicked
  | .other a, .other b => .ok (a == b)
  | _, _ => .ok false

/-- Compare of booleanT: equal interfaces compare 0, a left operand equal
to false orders first, anything else orders after. -/
def booleanT.Compare (a b : GoValue) : Outcome Int :=
  match goInterfaceEq a b with
  | .err e => .err e
  | .panicked => .panicked
  | .ok true => .ok 0
  | .ok false =>
    match goInterfaceEq a (.boolean false) with
    | .err e => .err e
    | .panicked => .panicked
    | .ok true => .ok (-1)
    | .ok false => .ok 1

/-- Convert of blobT: nil becomes an empty byte sequence, bytes pass
through, a string becomes its bytes, a value with a String method
(time.Time, time.Duration, and the nullT sentinel) takes the fmt.Stringer
case and uses that rendering's bytes, anything else fails with
InvalidType. -/
def blobT.Convert : GoValue → Outcome GoValue
  | .nilv => .ok (.bytes [])
  | .bytes bs => .ok (.bytes bs)
  | .str s => .ok (.bytes (utf8Encode s))
  | .time t => .ok (.bytes (utf8Encode (goTimeString t)))
  | .duration d => .ok (.bytes (utf8Encode (goDurationString d)))
  | .nullv => .ok (.bytes (utf8Encode nullT.String))
  | v => .err (.invalidType (goTypeNameStr v))

/-- Compare of blobT: byte-wise lexicographic, with the type assertions
panicking on non-byte operands. -/
def blobT.Compare : GoValue → GoValue → Outcome Int
  | .bytes a, .bytes b => .ok (listCompareNat a b)
  | _, _ => .panicked

/-- Convert of jsonT: a string is first attempted as a JSON document and on
parse failure is re-encoded as an opaque JSON string literal; any other
value marshals directly. -/
def jsonT.Convert : GoValue → Outcome GoValue
  | .str s =>
    match goJsonParse s with
    | some doc => .ok (.bytes (utf8Encode (goJsonMarshalDoc doc)))
    | none => .ok (.bytes (utf8Encode (quoteJsonString s)))
  | v => (goMarshalValue v).map (fun s => .bytes (utf8Encode s))

/-- Compare of jsonT: byte-wise comparison of the canonical encodings. -/
def jsonT.Compare : GoValue → GoValue → Outcome Int
  | .bytes a, .bytes b => .ok (listCompareNat a b)
  | _, _ => .panicked

mutual

/-- Convert dispatch of the Type interface, with the tuple and array
composites converting componentwise.  A tuple requires a value slice of
exactly its arity; an array accepts a value slice or a generator. -/
def SQLType.Convert : SQLType → GoValue → Outcome GoValue
  | .null, v => nullT.Convert v
  | .number k, v => numberT.Convert k v
  | .timestamp, v => timestampT.Convert v
  | .date, v => dateT.Convert v
  | .text, v => textT.Convert v
  | .boolean, v => booleanT.Convert v
  | .blob, v => blobT.Convert v
  | .json, v => jsonT.Convert v
  | .tuple ts, v =>
    match v with
    | .list vs =>
      if vs.length ≠ ts.length then .err (.invalidColumnNumber ts.length vs.length)
      else (tupleT.convertElems ts vs).map .list
    | w => .err (.notTuple (goTypeNameStr w))
  | .array u, v =>
    match v with
    | .list vs => (arrayT.convertElems u vs).map .list
    | .gen elems tailErr closeErr => (arrayT.convertGen u elems tailErr closeErr).1.map .list
    | w => .err (.notArray (goTypeNameStr w))

/-- Elementwise conversion of a tuple value through the component types;
the first failing element propagates its error. -/
def tupleT.convertElems : List SQLType → List GoValue → Outcome (List GoValue)
  | [], [] => .ok []
  | t :: ts, v :: vs =>
    match SQLType.Convert t v with
    | .ok c => (tupleT.convertElems ts vs).map (fun cs => c :: cs)
    | .err e => .err e
    | .panicked => .panicked
  | _, _ => .panicked

/-- Elementwise conversion of a concrete array value through the underlying
type. -/
def arrayT.convertElems (u : SQLType) : List GoValue → Outcome (List GoValue)
  | [] => .ok []
  | v :: vs =>
    match SQLType.Convert u v with
    | .ok c => (arrayT.convertElems u vs).map (fun cs => c :: cs)
    | .err e => .err e
    | .panicked => .panicked

/-- Drain of a generator by arrayT.Convert, returning the conversion
outcome together with the number of times Close was called on the
producer.  The loop pulls elements until the producer reports io.EOF or an
error; the source returns immediately on a pull error or an element
conversion error, and only calls Close after a complete successful drain. -/
def arrayT.convertGen (u : SQLType) :
    List GoValue → Option GoError → Option GoError → Outcome (List GoValue) × Nat
  | [], some e, _ => (.err e, 0)
  | [], none, some e => (.err e, 1)
  | [], none, none => (.ok [], 1)
  | v :: vs, tailErr, closeErr =>
    match SQLType.Convert u v with
    | .ok c =>
      match arrayT.convertGen u vs tailErr closeErr with
      | (.ok cs, n) => (.ok (c :: cs), n)
      | o => o
    | .err e => (.err e, 0)
    | .panicked => (.panicked, 0)

end

mutual

/-- Compare dispatch of the Type interface; the composites re-convert both
operands first and then compare elementwise with lexicographic
short-circuit, arrays ordering shorter sequences first. -/
def SQLType.Compare : SQLType → GoValue → GoValue → Outcome Int
  | .null, _, _ => .ok 0
  | .number k, a, b => numberT.Compare k a b
  | .timestamp, a, b => timestampT.Compare a b
  | .date, a, b => dateT.Compare a b
  | .text, a, b => textT.Compare a b
  | .boolean, a, b => booleanT.Compare a b
  | .blob, a, b => blobT.Compare a b
  | .json, a, b => jsonT.Compare a b
  | .tuple ts, a, b =>
    match SQLType.Convert (.tuple ts) a with
    | .err e => .err e
    | .panicked => .panicked
    | .ok a2 =>
      match SQLType.Convert (.tuple ts) b with
      | .err e => .err e
      | .panicked => .panicked
      | .ok b2 =>
        match a2, b2 with
        | .list as2, .list bs2 => tupleT.compareElems ts as2 bs2
        | _, _ => .panicked
  | .array u, a, b =>
    match SQLType.Convert (.array u) a with
    | .err e => .err e
    | .panicked => .panicked
    | .ok a2 =>
      match SQLType.Convert (.array u) b with
      | .err e => .err e
      | .panicked => .panicked
      | .ok b2 =>
        match a2, b2 with
        | .list as2, .list bs2 =>
          if as2.length < bs2.length then .ok (-1)
          else if bs2.length < as2.length then .ok 1
          else arrayT.compareElems u as2 bs2
        | _, _ => .panicked

/-- Elementwise comparison of converted tuple values, driven by the left
sequence as the source loop is, with the first nonzero comparison
returned. -/
def tupleT.compareElems : List SQLType → List GoValue → List GoValue → Outcome Int
  | _, [], _ => .ok 0
  | t :: ts, a :: ar, b :: br =>
    match SQLType.Compare t a b with
    | .err e => .err e
    | .panicked => .panicked
    | .ok c => if c ≠ 0 then .ok c else tupleT.compareElems ts ar br
  | [], _ :: _, _ => .panicked
  | _ :: _, _ :: _, [] => .panicked

/-- Elementwise comparison of converted equal-length array values. -/
def arrayT.compareElems (u : SQLType) : List GoValue → List GoValue → Outcome Int
  | [], _ => .ok 0
  | a :: ar, b :: br =>
    match SQLType.Compare u a b with
    | .err e => .err e
    | .panicked => .panicked
    | .ok c => if c ≠ 0 then .ok c else arrayT.compareElems u ar br
  | _ :: _, [] => .panicked

end

/-- Unfolding equation of Compare at the null variant. -/
@[simp] theorem SQLType.Compare_null (a b : GoValue) : SQLType.Compare .null a b = .ok 0 := by
  unfold SQLType.Compare
  rfl

/-- Unfolding equation of Compare at a numeric variant. -/
@[simp] theorem SQLType.Compare_number (k : NumKind) (a b : GoValue) :
    SQLType.Compare (.number k) a b = numberT.Compare k a b := by
  unfold SQLType.Compare
  rfl

/-- Unfolding equation of Compare at the timestamp variant. -/
@[simp] theorem SQLType.Compare_timestamp (a b : GoValue) :
    SQLType.Compare .timestamp a b = timestampT.Compare a b := by
  unfold SQLType.Compare
  rfl

/-- Unfolding equation of Compare at the date variant. -/
@[simp] theorem SQLType.Compare_date (a b : GoValue) :
    SQLType.Compare .date a b = dateT.Compare a b := by
  unfold SQLType.Compare
  rfl

/-- Unfolding equation of Compare at the text variant. -/
@[simp] theorem SQLType.Compare_text (a b : GoValue) :
    SQLType.Compare .text a b = textT.Compare a b := by
  unfold SQLType.Compare
  rfl

/-- Unfolding equation of Compare at the boolean variant. -/
@[simp] theorem SQLType.Compare_boolean (a b : GoValue) :
    SQLType.Compare .boolean a b = booleanT.Compare a b := by
  unfold SQLType.Compare
  rfl

/-- Unfolding equation of Compare at the blob variant. -/
@[simp] theorem SQLType.Compare_blob (a b : GoValue) :
    SQLType.Compare .blob a b = blobT.Compare a b := by
  unfold SQLType.Compare
  rfl

/-- Unfolding equation of Compare at the json variant. -/
@[simp] theorem SQLType.Compare_json (a b : GoValue) :
    SQLType.Compare .json a b = jsonT.Compare a b := by
  unfold SQLType.Compare
  rfl

/-- Unfolding equation of Compare at a tuple variant. -/
theorem SQLType.Compare_tuple (ts : List SQLType) (a b : GoValue) :
    SQLType.Compare (.tuple ts) a b =
      (match SQLType.Convert (.tuple ts) a with
        | .err e => .err e
        | .panicked => .panicked
        | .ok a2 =>
          match SQLType.Convert (.tuple ts) b with
          | .err e => .err e
          | .panicked => .panicked
          | .ok b2 =>
            match a2, b2 with
            | .list as2, .list bs2 => tupleT.compareElems ts as2 bs2
            | _, _ => .panicked) := by
  unfold SQLType.Compare
  rfl

/-- Unfolding equation of Compare at an array variant. -/
theorem SQLType.Compare_array (u : SQLType) (a b : GoValue) :
    SQLType.Compare (.array u) a b =
      (match SQLType.Convert (.array u) a with
        | .err e => .err e
        | .panicked => .panicked
        | .ok a2 =>
          match SQLType.Convert (.array u) b with
          | .err e => .err e
          | .panicked => .panicked
          | .ok b2 =>
            match a2, b2 with
            | .list as2, .list bs2 =>
              if as2.length < bs2.length then .ok (-1)
              else if bs2.length < as2.length then .ok 1
              else arrayT.compareElems u as2 bs2
            | _, _ => .panicked) := by
  unfold SQLType.Compare
  rfl

/-- Unfolding equation of the tuple element comparison at an empty left
sequence. -/
@[simp] theorem tupleT_compareElems_nil_eq (ts : List SQLType) (bs : List GoValue) :
    tupleT.compareElems ts [] bs = .ok 0 := by
  cases ts <;> (conv_lhs => unfold tupleT.compareElems)

/-- Unfolding equation of the tuple element comparison at cons cells. -/
theorem tupleT_compareElems_cons_eq (t : SQLType) (ts : List SQLType) (a b : GoValue)
    (ar br : List GoValue) :
    tupleT.compareElems (t :: ts) (a :: ar) (b :: br) =
      (match SQLType.Compare t a b with
        | .err e => .err e
        | .panicked => .panicked
        | .ok c => if c ≠ 0 then .ok c else tupleT.compareElems ts ar br) := by
  conv_lhs => unfold tupleT.compareElems

/-- Unfolding equation of the array element comparison at the empty
sequence. -/
@[simp] theorem arrayT_compareElems_nil_eq (u : SQLType) (bs : List GoValue) :
    arrayT.compareElems u [] bs = .ok 0 := by
  unfold arrayT.compareElems
  rfl

/-- Unfolding equation of the array element comparison at cons cells. -/
theorem arrayT_compareElems_cons_eq (u : SQLType) (a b : GoValue) (ar br : List GoValue) :
    arrayT.compareElems u (a :: ar) (b :: br) =
      (match SQLType.Compare u a b with
        | .err e => .err e
        | .panicked => .panicked
        | .ok c => if c ≠ 0 then .ok c else arrayT.compareElems u ar br) := by
  conv_lhs => unfold arrayT.compareElems

/-- Wire values as sqltypes.Value is observed here: the NULL value or a
trusted tag and raw text. -/
inductive SqlValue where
  | null
  | trusted (typ : QueryType) (raw : String)
  deriving DecidableEq, Repr

/-- SQL of dateT: NULL passes through; otherwise the value is converted and
formatted with the date layout, but tagged with the Timestamp wire code. -/
def dateT.SQL (v : GoValue) : Outcome SqlValue :=
  match v with
  | .nullv => .ok .null
  | _ =>
    match dateT.Convert v with
    | .err e => .err e
    | .panicked => .panicked
    | .ok (.time t) => .ok (.trusted .timestamp (formatDateLayout t))
    | .ok _ => .panicked

/-- Column of a schema: name, type, default, nullability and source
table. -/
structure Column where
  name : String
  type : SQLType
  default : GoValue
  nullable : Bool
  source : String

/-- Check of a Column: a nil value passes iff the column is nullable, any
other value passes iff it converts under the column type. -/
def Column.Check (c : Column) (v : GoValue) : Outcome Bool :=
  match v with
  | .nilv => .ok c.nullable
  | _ =>
    match SQLType.Convert c.type v with
    | .ok _ => .ok true
    | .err _ => .ok false
    | .panicked => .panicked

/-- Loop of CheckRow over the columns: the first rejected value produces
UnexpectedType with its position and dynamic type name — except that for a
rejected nil value the source calls String on the nil reflect.Type returned
by reflect.TypeOf, which dereferences a nil interface and panics. -/
def checkRowAux : Nat → List Column → List GoValue → Outcome Unit
  | _, [], _ => .ok ()
  | idx, c :: cols, v :: vs =>
    match c.Check v with
    | .err e => .err e
    | .panicked => .panicked
    | .ok true => checkRowAux (idx + 1) cols vs
    | .ok false =>
      match v with
      | .nilv => .panicked
      | w => .err (.unexpectedType idx (goTypeNameStr w))
  | _, _ :: _, [] => .panicked

/-- CheckRow of a Schema: a length mismatch returns UnexpectedRowLength,
otherwise the columns are checked positionally. -/
def Schema.CheckRow (s : List Column) (row : List GoValue) : Outcome Unit :=
  if s.length ≠ row.length then .err (.unexpectedRowLength s.length row.length)
  else checkRowAux 0 s row

/-- Canonical-width predicate of a numeric variant: the dynamic type a
successful conversion must carry. -/
def numCanon : NumKind → GoValue → Prop
  | .i32, .int32 _ => True
  | .i64, .int64 _ => True
  | .u32, .uint32 _ => True
  | .u64, .uint64 _ => True
  | .f32, .float32 _ => True
  | .f64, .float64 _ => True
  | _, _ => False

/-- Inversion of a mapped successful outcome. -/
theorem Outcome.map_eq_ok {α β : Type} {f : α → β} {o : Outcome α} {b : β}
    (h : Outcome.map f o = .ok b) : ∃ a, o = .ok a ∧ b = f a := by
  cases o with
  | ok a => exact ⟨a, rfl, by injection h with h2; exact h2.symm⟩
  | err e => exact absurd h (by simp [Outcome.map])
  | panicked => exact absurd h (by simp [Outcome.map])

/-- C1: the generator drain of Array(U).Convert does not release the
producer exactly once on every exit path.  On a successful drain Close is
called once, but on an element conversion failure and on a producer pull
error the source returns before reaching the Close call, so the producer is
released zero times and leaks, while the conversion error does propagate.
The conjuncts evaluate the drain with its Close counter on each path. -/
theorem arrayT_convertGen_close_counts :
    arrayT.convertGen Int64 [.int 1, .int 2, .int 3] none none =
      (.ok [.int64 1, .int64 2, .int64 3], 1) ∧
    arrayT.convertGen Int64 [.str "a"] none none =
      (.err (.castError "unable to cast string to int64: a"), 0) ∧
    arrayT.convertGen Int64 [.int 1] (some (.genericError "producer failure")) none =
      (.err (.genericError "producer failure"), 0) ∧
    SQLType.Convert (Array Int64) (.gen [.str "a"] none none) =
      .err (.castError "unable to cast string to int64: a") :=
  ⟨rfl, rfl, rfl, rfl⟩

/-- C3: CheckRow returns UnexpectedRowLength on a length mismatch and
returns UnexpectedType for a rejected non-nil value, but a row whose value
at a non-nullable column's position is nil is not rejected with a returned
error: the source calls String on the nil reflect.Type of the nil value and
panics with a nil dereference. -/
theorem checkRow_nil_non_nullable_panics :
    Schema.CheckRow [⟨"a", Int64, .nilv, false, "t"⟩] [.nilv] = .panicked ∧
    Schema.CheckRow
      [⟨"a", Int64, .nilv, false, "t"⟩, ⟨"b", Int64, .nilv, false, "t"⟩,
        ⟨"c", Int64, .nilv, false, "t"⟩]
      [.int 1, .int 2] = .err (.unexpectedRowLength 3 2) ∧
    Schema.CheckRow [⟨"a", Int64, .nilv, false, "t"⟩] [.other "chan int"] =
      .err (.unexpectedType 0 "chan int") ∧
    Schema.CheckRow [⟨"a", Int64, .nilv, true, "t"⟩] [.nilv] = .ok () :=
  ⟨rfl, rfl, rfl, rfl⟩

/-- C4: Boolean.Convert does not match the reference definition.  The
integer kinds share one type-switch case, so the comparison against the
untyped constant 0 is an interface comparison against a plain int 0: an
int64 zero converts to true even though the reference definition says any
integer-kind zero is false.  The shared float case asserts the value to
float64, so a float32 input panics instead of returning.  A plain int zero,
a string, and nil behave as described. -/
theorem booleanT_convert_int64_zero_true_float32_panics :
    booleanT.Convert (.int64 0) = .ok (.boolean true) ∧
    booleanT.Convert (.int 0) = .ok (.boolean false) ∧
    booleanT.Convert (.float32 (mkRat 3 2)) = .panicked ∧
    booleanT.Convert (.str "true") = .err (.genericError "unable to cast string to bool") ∧
    booleanT.Convert .nilv = .err (.genericError "unable to cast nil to bool") ∧
    SQLType.Convert Boolean (.int64 0) = .ok (.boolean true) :=
  ⟨rfl, rfl, rfl, rfl, rfl, rfl⟩

/-- C7: the IsUnsigned classification recognizes only the 32 and 64 bit
widths, so the four narrow variants always dispatch Compare to the signed
path, and Int16.Compare(5, 3) and Uint16.Compare(5, 3) both return 1
through the int64 casts of compareSigned. -/
theorem narrow_widths_compare_signed_path :
    (∀ a b : GoValue, SQLType.Compare Int8 a b = compareSigned a b) ∧
    (∀ a b : GoValue, SQLType.Compare Uint8 a b = compareSigned a b) ∧
    (∀ a b : GoValue, SQLType.Compare Int16 a b = compareSigned a b) ∧
    (∀ a b : GoValue, SQLType.Compare Uint16 a b = compareSigned a b) ∧
    SQLType.Compare Int16 (.int 5) (.int 3) = .ok 1 ∧
    SQLType.Compare Uint16 (.int 5) (.int 3) = .ok 1 ∧
    GoCast.ToInt64E (.int 5) = .ok 5 ∧ GoCast.ToInt64E (.int 3) = .ok 3 := by
  refine ⟨fun a b => ?_, fun a b => ?_, fun a b => ?_, fun a b => ?_, ?_, ?_, rfl, rfl⟩ <;>
    simp [Int8, Uint8, Int16, Uint16, SQLType.Compare_number, numberT.Compare, IsUnsigned,
      compareSigned, GoCast.ToInt64E]

/-- C10: the float variants are not classified as unsigned either, so their
Compare also takes the signed path, which casts both operands to int64 and
truncates the fractional part toward zero; two floats with equal truncations
compare as 0, as 1.5 and 1.2 do. -/
theorem float_compare_signed_truncation :
    (∀ a b : GoValue, SQLType.Compare Float32 a b = compareSigned a b) ∧
    (∀ a b : GoValue, SQLType.Compare Float64 a b = compareSigned a b) ∧
    (∀ q : Rat, GoCast.ToInt64E (.float64 q) = .ok (wrapS 64 (truncRat q))) ∧
    (∀ qa qb : Rat, truncRat qa = truncRat qb →
      SQLType.Compare Float64 (.float64 qa) (.float64 qb) = .ok 0) ∧
    SQLType.Compare Float64 (.float64 (mkRat 3 2)) (.float64 (mkRat 6 5)) = .ok 0 := by
  refine ⟨fun a b => ?_, fun a b => ?_, fun q => rfl, fun qa qb h => ?_, ?_⟩
  · simp [Float32, SQLType.Compare_number, numberT.Compare, IsUnsigned]
  · simp [Float64, SQLType.Compare_number, numberT.Compare, IsUnsigned]
  · simp [Float64, SQLType.Compare_number, numberT.Compare, IsUnsigned, compareSigned,
      GoCast.ToInt64E, h]
  · show SQLType.Compare (.number .f64) _ _ = _
    rw [SQLType.Compare_number]
    rfl

/-- Rewriting of the fallback loop of timestampT.Convert as a first-match
over the layout list. -/
theorem tryTimestampLayouts_eq_findSome (ls : List TsLayout) (s : String) :
    tryTimestampLayouts ls s = ls.findSome? (fun l => goTimeParse l s) := by
  induction ls with
  | nil => rfl
  | cons l ls ih =>
    rw [List.findSome?_cons]
    cases h : goTimeParse l s <;> simp [tryTimestampLayouts, h, ih]

/-- C5: on a string input, Timestamp.Convert is the first-match over the
primary layout followed by the ordered fallback layouts (date-only,
RFC3339, compact YYYYMMDDHHMMSS, compact YYYYMMDD), returning the UTC time
of the first layout that parses and failing with ConvertingToTime when none
does; "2020-01-02" parses by the date-only fallback to midnight UTC of that
date, and "not-a-date" fails. -/
theorem timestampT_convert_layout_chain :
    (∀ s : String, timestampT.Convert (.str s) =
      (match (TsLayout.primary :: TimestampLayouts).findSome? (fun l => goTimeParse l s) with
        | some t => .ok (.time t.toUTC)
        | none => .err (.convertingToTime s))) ∧
    timestampT.Convert (.str "2020-01-02") = .ok (.time (mkUTCTime 2020 1 2 0 0 0 0)) ∧
    mkUTCTime 2020 1 2 0 0 0 0 = ⟨1577923200, 0, .utc⟩ ∧
    SQLType.Convert Timestamp (.str "2020-01-02") = .ok (.time ⟨1577923200, 0, .utc⟩) ∧
    timestampT.Convert (.str "not-a-date") = .err (.convertingToTime "not-a-date") := by
  refine ⟨fun s => ?_, rfl, rfl, rfl, rfl⟩
  rw [List.findSome?_cons]
  simp only [timestampT.Convert]
  cases h : goTimeParse .primary s <;>
    simp [h, tryTimestampLayouts_eq_findSome]

/-- Shape of every successful dateT conversion: the result is a time
obtained by truncating some time to its day and normalizing to UTC. -/
theorem dateT_convert_shape (v : GoValue) (c : GoValue) (h : dateT.Convert v = .ok c) :
    ∃ t0, c = .time ((truncateDate t0).toUTC) := by
  cases v <;> simp only [dateT.Convert] at h
  case time t => exact ⟨t, by injection h with h2; exact h2.symm⟩
  case str s =>
    split at h
    · exact ⟨_, by injection h with h2; exact h2.symm⟩
    · exact absurd h (by simp)
  all_goals {
    split at h
    · exact ⟨_, by injection h with h2; exact h2.symm⟩
    · exact absurd h (by simp)
    · exact absurd h (by simp)
    · exact absurd h (by simp)
  }

/-- C8: for every input Date.Convert accepts, the wire encoding Date.SQL
returns a value tagged with the Timestamp wire code — not the Date code —
whose bytes are the converted value formatted with the date layout
YYYY-MM-DD; the converted value is already truncated to the start of its
UTC day (UTC location, zero nanoseconds, epoch a whole multiple of
86400 seconds). -/
theorem dateT_sql_timestamp_tag (v : GoValue) (t : GoTime)
    (h : dateT.Convert v = .ok (.time t)) :
    dateT.SQL v = .ok (.trusted .timestamp (formatDateLayout t)) ∧
    t.loc = .utc ∧ t.nsec = 0 ∧ Int.fdiv t.epoch 86400 * 86400 = t.epoch := by
  obtain ⟨t0, hshape⟩ := dateT_convert_shape v (.time t) h
  injection hshape with hshape
  constructor
  · unfold dateT.SQL
    split
    · exact absurd h (by simp [dateT.Convert, numberT.Convert, GoCast.ToInt64E, Outcome.map])
    · rw [h]
  · refine ⟨?_, ?_, ?_⟩
    · rw [hshape]; rfl
    · rw [hshape]; rfl
    · rw [hshape]
      show Int.fdiv (Int.fdiv t0.epoch 86400 * 86400) 86400 * 86400 =
        Int.fdiv t0.epoch 86400 * 86400
      rw [Int.mul_fdiv_cancel _ (by norm_num)]

/-- Witness of the date wire-encoding theorem at the accepted input
"2020-01-02". -/
theorem dateT_sql_timestamp_tag_witness :
    dateT.SQL (.str "2020-01-02") =
      .ok (.trusted .timestamp (formatDateLayout ⟨1577923200, 0, .utc⟩)) ∧
    GoTime.loc ⟨1577923200, 0, .utc⟩ = .utc ∧
    GoTime.nsec ⟨1577923200, 0, .utc⟩ = 0 ∧
    Int.fdiv (GoTime.epoch ⟨1577923200, 0, .utc⟩) 86400 * 86400 =
      GoTime.epoch ⟨1577923200, 0, .utc⟩ :=
  dateT_sql_timestamp_tag (.str "2020-01-02") ⟨1577923200, 0, .utc⟩ rfl

/-- Propagation of the first failing element conversion through the tuple
element loop: with a prefix of converting elements and a failing element,
the loop returns that element's error. -/
theorem tupleT_convertElems_propagates (t : SQLType) (ts1 ts2 : List SQLType) (v : GoValue)
    (vs1 vs2 : List GoValue) (e : GoError) (hlen : vs1.length = ts1.length)
    (hok : ∀ p ∈ ts1.zip vs1, ∃ c, SQLType.Convert p.1 p.2 = .ok c)
    (herr : SQLType.Convert t v = .err e) :
    tupleT.convertElems (ts1 ++ t :: ts2) (vs1 ++ v :: vs2) = .err e := by
  induction ts1 generalizing vs1 with
  | nil =>
    have : vs1 = [] := List.length_eq_zero.mp (by simpa using hlen)
    subst this
    simp [tupleT.convertElems, herr]
  | cons t1 ts1 ih =>
    cases vs1 with
    | nil => exact absurd hlen (by simp)
    | cons v1 vs1 =>
      obtain ⟨c1, hc1⟩ := hok (t1, v1) (by simp)
      have hrest : ∀ p ∈ ts1.zip vs1, ∃ c, SQLType.Convert p.1 p.2 = .ok c := by
        intro p hp
        exact hok p (by simp [hp])
      simp [tupleT.convertElems, hc1, ih vs1 (by simpa using hlen) hrest, Outcome.map]

/-- Composition of elementwise successes in the tuple element loop: when
every component converts, the loop returns the list of converted
components. -/
theorem tupleT_convertElems_ok (ts : List SQLType) (vs : List GoValue)
    (hlen : vs.length = ts.length)
    (hok : ∀ p ∈ ts.zip vs, ∃ c, SQLType.Convert p.1 p.2 = .ok c) :
    ∃ cs, tupleT.convertElems ts vs = .ok cs ∧
      List.Forall₂ (fun p c => SQLType.Convert p.1 p.2 = .ok c) (ts.zip vs) cs := by
  induction ts generalizing vs with
  | nil =>
    have : vs = [] := List.length_eq_zero.mp (by simpa using hlen)
    subst this
    exact ⟨[], by simp [tupleT.convertElems], by simp⟩
  | cons t1 ts ih =>
    cases vs with
    | nil => exact absurd hlen (by simp)
    | cons v1 vs =>
      obtain ⟨c1, hc1⟩ := hok (t1, v1) (by simp)
      obtain ⟨cs, hcs, hfa⟩ := ih vs (by simpa using hlen) (by
        intro p hp
        exact hok p (by simp [hp]))
      exact ⟨c1 :: cs, by simp [tupleT.convertElems, hc1, hcs, Outcome.map],
        by rw [List.zip_cons_cons]; exact List.Forall₂.cons hc1 hfa⟩

/-- C9: Tuple(T1..Tn).Convert succeeds exactly on value slices of arity n
whose elements each convert: a slice of any other length fails with
InvalidColumnNumber, a non-slice input fails with NotTuple, the first
failing element conversion propagates its error, and elementwise successes
compose; the two concrete examples of the spec behave accordingly. -/
theorem tupleT_convert_arity :
    (∀ (ts : List SQLType) (vs : List GoValue), vs.length ≠ ts.length →
      SQLType.Convert (.tuple ts) (.list vs) = .err (.invalidColumnNumber ts.length vs.length)) ∧
    (∀ (ts : List SQLType) (v : GoValue), (∀ vs, v ≠ .list vs) →
      SQLType.Convert (.tuple ts) v = .err (.notTuple (goTypeNameStr v))) ∧
    (∀ (t : SQLType) (ts1 ts2 : List SQLType) (v : GoValue) (vs1 vs2 : List GoValue)
        (e : GoError), vs1.length = ts1.length → vs2.length = ts2.length →
      (∀ p ∈ ts1.zip vs1, ∃ c, SQLType.Convert p.1 p.2 = .ok c) →
      SQLType.Convert t v = .err e →
      SQLType.Convert (.tuple (ts1 ++ t :: ts2)) (.list (vs1 ++ v :: vs2)) = .err e) ∧
    (∀ (ts : List SQLType) (vs : List GoValue), vs.length = ts.length →
      (∀ p ∈ ts.zip vs, ∃ c, SQLType.Convert p.1 p.2 = .ok c) →
      ∃ cs, SQLType.Convert (.tuple ts) (.list vs) = .ok (.list cs) ∧
        List.Forall₂ (fun p c => SQLType.Convert p.1 p.2 = .ok c) (ts.zip vs) cs) ∧
    SQLType.Convert (Tuple [Int64, Text]) (.list [.int 1, .str "a"]) =
      .ok (.list [.int64 1, .str "a"]) ∧
    SQLType.Convert (Tuple [Int64, Text]) (.list [.int 1]) =
      .err (.invalidColumnNumber 2 1) := by
  refine ⟨fun ts vs h => by simp [SQLType.Convert, h], fun ts v hv => ?_, ?_, ?_, rfl, rfl⟩
  · cases v <;> first
      | exact absurd rfl (hv _)
      | simp [SQLType.Convert]
  · intro t ts1 ts2 v vs1 vs2 e h1 h2 hok herr
    have hlen : (vs1 ++ v :: vs2).length = (ts1 ++ t :: ts2).length := by simp [h1, h2]
    simp [SQLType.Convert, hlen,
      tupleT_convertElems_propagates t ts1 ts2 v vs1 vs2 e h1 hok herr, Outcome.map]
  · intro ts vs hlen hok
    obtain ⟨cs, hcs, hfa⟩ := tupleT_convertElems_ok ts vs hlen hok
    exact ⟨cs, by simp [SQLType.Convert, hlen, hcs, Outcome.map], hfa⟩

/-- Witness of the hypothesis-bearing clauses of the tuple arity theorem at
concrete inputs: a one-element slice against arity two, a plain int against
a tuple type, a failing second element behind a converting first one, and an
elementwise success. -/
theorem tupleT_convert_arity_witness :
    SQLType.Convert (.tuple [Int64, Text]) (.list [.int 1]) =
      .err (.invalidColumnNumber 2 1) ∧
    SQLType.Convert (.tuple [Int64, Text]) (.int 7) = .err (.notTuple "int") ∧
    SQLType.Convert (.tuple ([Int64] ++ Int64 :: [])) (.list ([.int 1] ++ .str "x" :: [])) =
      .err (.castError "unable to cast string to int64: x") ∧
    (∃ cs, SQLType.Convert (.tuple [Int64, Text]) (.list [.int 1, .str "a"]) = .ok (.list cs) ∧
      List.Forall₂ (fun p c => SQLType.Convert p.1 p.2 = .ok c)
        ([Int64, Text].zip [.int 1, .str "a"]) cs) := by
  refine ⟨tupleT_convert_arity.1 [Int64, Text] [.int 1] (by decide),
    tupleT_convert_arity.2.1 [Int64, Text] (.int 7) (fun vs => by simp),
    tupleT_convert_arity.2.2.1 Int64 [Int64] [] (.str "x") [.int 1] [] _ rfl rfl ?_ rfl,
    tupleT_convert_arity.2.2.2.1 [Int64, Text] [.int 1, .str "a"] rfl ?_⟩
  · intro p hp
    fin_cases hp
    exact ⟨.int64 1, rfl⟩
  · intro p hp
    fin_cases hp
    · exact ⟨.int64 1, rfl⟩
    · exact ⟨.str "a", rfl⟩

/-- Reflexive byte comparison is zero. -/
theorem listCompareNat_self (l : List Nat) : listCompareNat l l = 0 := by
  induction l with
  | nil => rfl
  | cons a l ih => simp [listCompareNat, ih]

/-- Reflexive instant ordering is false. -/
theorem timeBefore_self (t : GoTime) : timeBefore t t = false := by
  simp [timeBefore]

/-- Idempotence of the numeric conversions: a canonical output re-converts
and compares 0 with itself. -/
theorem numberT_idem (k : NumKind) (v c : GoValue) (h : numberT.Convert k v = .ok c) :
    (∃ c2, numberT.Convert k c = .ok c2) ∧ numberT.Compare k c c = .ok 0 := by
  cases k <;> simp only [numberT.Convert] at h
  case i8 => exact absurd h (by simp)
  case u8 => exact absurd h (by simp)
  case i16 => exact absurd h (by simp)
  case u16 => exact absurd h (by simp)
  case i32 =>
    obtain ⟨a, _, hc⟩ := Outcome.map_eq_ok h
    subst hc
    exact ⟨⟨.int32 (wrapS 32 a), rfl⟩,
      by simp [numberT.Compare, IsUnsigned, compareSigned, GoCast.ToInt64E]⟩
  case i64 =>
    obtain ⟨a, _, hc⟩ := Outcome.map_eq_ok h
    subst hc
    exact ⟨⟨.int64 a, rfl⟩,
      by simp [numberT.Compare, IsUnsigned, compareSigned, GoCast.ToInt64E]⟩
  case u32 =>
    obtain ⟨a, _, hc⟩ := Outcome.map_eq_ok h
    subst hc
    exact ⟨⟨.uint32 (wrapU 32 (a : Int)), rfl⟩,
      by simp [numberT.Compare, IsUnsigned, compareUnsigned, GoCast.ToUint64E]⟩
  case u64 =>
    obtain ⟨a, _, hc⟩ := Outcome.map_eq_ok h
    subst hc
    exact ⟨⟨.uint64 a, rfl⟩,
      by simp [numberT.Compare, IsUnsigned, compareUnsigned, GoCast.ToUint64E]⟩
  case f32 =>
    obtain ⟨a, _, hc⟩ := Outcome.map_eq_ok h
    subst hc
    exact ⟨⟨.float32 a, rfl⟩,
      by simp [numberT.Compare, IsUnsigned, compareSigned, GoCast.ToInt64E]⟩
  case f64 =>
    obtain ⟨a, _, hc⟩ := Outcome.map_eq_ok h
    subst hc
    exact ⟨⟨.float64 a, rfl⟩,
      by simp [numberT.Compare, IsUnsigned, compareSigned, GoCast.ToInt64E]⟩

/-- Shape of a successful timestamp conversion: always a time value. -/
theorem timestampT_convert_shape (v c : GoValue) (h : timestampT.Convert v = .ok c) :
    ∃ t, c = .time t := by
  cases v <;> simp only [timestampT.Convert] at h
  case time t => exact ⟨t.toUTC, by injection h with h2; exact h2.symm⟩
  case str s =>
    split at h
    · exact ⟨_, by injection h with h2; exact h2.symm⟩
    · split at h
      · exact ⟨_, by injection h with h2; exact h2.symm⟩
      · exact absurd h (by simp)
  all_goals {
    split at h
    · exact ⟨_, by injection h with h2; exact h2.symm⟩
    · exact absurd h (by simp)
    · exact absurd h (by simp)
    · exact absurd h (by simp)
  }

/-- Shape of a successful text conversion: always a string. -/
theorem textT_convert_shape (v c : GoValue) (h : textT.Convert v = .ok c) :
    ∃ s, c = .str s := by
  simp only [textT.Convert] at h
  split at h
  · exact ⟨_, by injection h with h2; exact h2.symm⟩
  · exact absurd h (by simp)
  · exact absurd h (by simp)

/-- Shape of a successful boolean conversion: always a boolean. -/
theorem booleanT_convert_shape (v c : GoValue) (h : booleanT.Convert v = .ok c) :
    ∃ b, c = .boolean b := by
  cases v <;> simp only [booleanT.Convert] at h <;>
    first
    | exact ⟨_, by injection h with h2; exact h2.symm⟩
    | exact absurd h (by simp)

/-- Shape of a successful blob conversion: always a byte sequence. -/
theorem blobT_convert_shape (v c : GoValue) (h : blobT.Convert v = .ok c) :
    ∃ bs, c = .bytes bs := by
  cases v <;> simp only [blobT.Convert] at h <;>
    first
    | exact ⟨_, by injection h with h2; exact h2.symm⟩
    | exact absurd h (by simp)

/-- Shape of a successful json conversion: always a byte sequence. -/
theorem jsonT_convert_shape (v c : GoValue) (h : jsonT.Convert v = .ok c) :
    ∃ bs, c = .bytes bs := by
  cases v <;> simp only [jsonT.Convert] at h
  case str s =>
    split at h <;> exact ⟨_, by injection h with h2; exact h2.symm⟩
  all_goals {
    rcases Outcome.map_eq_ok h with ⟨a, _, hc⟩
    exact ⟨_, hc⟩
  }

/-- Size bound of a member of a type list. -/
theorem sizeOf_lt_of_mem_typelist {t : SQLType} {ts : List SQLType} (h : t ∈ ts) :
    sizeOf t < 1 + sizeOf ts := by
  induction h with
  | head l => simp; omega
  | tail b hmem ih => simp; omega

/-- Inversion of a successful tuple conversion. -/
theorem tupleT_convert_inv (ts : List SQLType) (v c : GoValue)
    (h : SQLType.Convert (.tuple ts) v = .ok c) :
    ∃ vs cs, v = .list vs ∧ c = .list cs ∧ vs.length = ts.length ∧
      tupleT.convertElems ts vs = .ok cs := by
  cases v <;> simp only [SQLType.Convert] at h
  case list vs =>
    split at h
    · exact absurd h (by simp)
    · obtain ⟨cs, hcs, hc⟩ := Outcome.map_eq_ok h
      exact ⟨vs, cs, rfl, hc, by omega, hcs⟩
  all_goals exact absurd h (by simp)

/-- Every output slot of the tuple element loop is the successful image of
its component type's conversion. -/
theorem tupleT_convertElems_img (ts : List SQLType) (vs cs : List GoValue)
    (h : tupleT.convertElems ts vs = .ok cs) :
    List.Forall₂ (fun t c => ∃ v0, SQLType.Convert t v0 = .ok c) ts cs := by
  induction ts generalizing vs cs with
  | nil =>
    cases vs with
    | nil =>
      simp only [tupleT.convertElems] at h
      injection h with h2
      rw [h2.symm]
      exact List.Forall₂.nil
    | cons v vs => exact absurd h (by simp [tupleT.convertElems])
  | cons t1 ts ih =>
    cases vs with
    | nil => exact absurd h (by simp [tupleT.convertElems])
    | cons v1 vs =>
      simp only [tupleT.convertElems] at h
      split at h
      · rename_i c1 hc1
        obtain ⟨cs1, hcs1, hc⟩ := Outcome.map_eq_ok h
        rw [hc]
        exact List.Forall₂.cons ⟨v1, hc1⟩ (ih vs cs1 hcs1)
      · exact absurd h (by simp)
      · exact absurd h (by simp)

/-- Re-conversion of the outputs of the tuple element loop, given the
idempotence of each member type. -/
theorem tupleT_convertElems_reconv (ts : List SQLType) (cs : List GoValue)
    (hP : ∀ t ∈ ts, ∀ v c, SQLType.Convert t v = .ok c → ∃ c2, SQLType.Convert t c = .ok c2)
    (himg : List.Forall₂ (fun t c => ∃ v0, SQLType.Convert t v0 = .ok c) ts cs) :
    ∃ cs2, tupleT.convertElems ts cs = .ok cs2 := by
  induction himg with
  | nil => exact ⟨[], by simp [tupleT.convertElems]⟩
  | cons hhead htail ih =>
    rename_i t1 c1 ts1 cs1
    obtain ⟨v0, hv0⟩ := hhead
    obtain ⟨c2, hc2⟩ := hP t1 (by simp) v0 c1 hv0
    obtain ⟨cs2, hcs2⟩ := ih (fun t ht => hP t (by simp [ht]))
    exact ⟨c2 :: cs2, by simp [tupleT.convertElems, hc2, hcs2, Outcome.map]⟩

/-- Reflexive comparison of the outputs of the tuple element loop is zero,
given the reflexive-zero property of each member type on its images. -/
theorem tupleT_compareElems_self (ts : List SQLType) (xs ys : List GoValue)
    (hP : ∀ t ∈ ts, ∀ v c, SQLType.Convert t v = .ok c → SQLType.Compare t c c = .ok 0)
    (h : tupleT.convertElems ts xs = .ok ys) :
    tupleT.compareElems ts ys ys = .ok 0 := by
  induction ts generalizing xs ys with
  | nil =>
    cases xs with
    | nil =>
      simp only [tupleT.convertElems] at h
      injection h with h2
      rw [h2.symm]
      exact tupleT_compareElems_nil_eq [] []
    | cons x xs => exact absurd h (by simp [tupleT.convertElems])
  | cons t1 ts ih =>
    cases xs with
    | nil => exact absurd h (by simp [tupleT.convertElems])
    | cons x1 xs =>
      simp only [tupleT.convertElems] at h
      split at h
      · rename_i y1 hy1
        obtain ⟨ys1, hys1, hy⟩ := Outcome.map_eq_ok h
        rw [hy, tupleT_compareElems_cons_eq, hP t1 (by simp) x1 y1 hy1]
        simpa using ih xs ys1 (fun t ht => hP t (List.mem_cons_of_mem t1 ht)) hys1
      · exact absurd h (by simp)
      · exact absurd h (by simp)

/-- Inversion of a successful array conversion: the result is a list every
element of which is a successful image of the underlying conversion. -/
theorem arrayT_convert_inv (u : SQLType) (v c : GoValue)
    (h : SQLType.Convert (.array u) v = .ok c) :
    ∃ cs, c = .list cs ∧ ∀ c2 ∈ cs, ∃ v0, SQLType.Convert u v0 = .ok c2 := by
  cases v <;> simp only [SQLType.Convert] at h
  case list vs =>
    obtain ⟨cs, hcs, hc⟩ := Outcome.map_eq_ok h
    refine ⟨cs, hc, ?_⟩
    clear h hc
    induction vs generalizing cs with
    | nil =>
      simp only [arrayT.convertElems] at hcs
      injection hcs with h2
      rw [h2.symm]
      simp
    | cons v1 vs ih =>
      simp only [arrayT.convertElems] at hcs
      split at hcs
      · rename_i c1 hc1
        obtain ⟨cs1, hcs1, hceq⟩ := Outcome.map_eq_ok hcs
        rw [hceq]
        intro c2 hc2
        rcases List.mem_cons.mp hc2 with hc2 | hc2
        · exact ⟨v1, by rw [hc2]; exact hc1⟩
        · exact ih cs1 hcs1 c2 hc2
      · exact absurd hcs (by simp)
      · exact absurd hcs (by simp)
  case gen elems tailErr closeErr =>
    obtain ⟨cs, hcs, hc⟩ := Outcome.map_eq_ok h
    refine ⟨cs, hc, ?_⟩
    clear h hc
    induction elems generalizing cs with
    | nil =>
      rcases tailErr with _ | e
      · rcases closeErr with _ | e
        · simp only [arrayT.convertGen] at hcs
          injection hcs with h2
          rw [h2.symm]
          simp
        · exact absurd hcs (by simp [arrayT.convertGen])
      · exact absurd hcs (by simp [arrayT.convertGen])
    | cons v1 vs ih =>
      simp only [arrayT.convertGen] at hcs
      split at hcs
      · rename_i c1 hc1
        split at hcs
        · rename_i cs1 n hrec
          injection hcs with h2
          rw [h2.symm]
          intro c2 hc2
          rcases List.mem_cons.mp hc2 with hc2 | hc2
          · exact ⟨v1, by rw [hc2]; exact hc1⟩
          · exact ih cs1 (by rw [hrec]) c2 hc2
        · rename_i hne
          exact absurd hcs (by
            rcases hrec : arrayT.convertGen u vs tailErr closeErr with ⟨o, n⟩
            cases o <;> simp_all)
      · exact absurd hcs (by simp)
      · exact absurd hcs (by simp)
  all_goals exact absurd h (by simp)

/-- Re-conversion of the elements of a converted array value. -/
theorem arrayT_convertElems_reconv (u : SQLType) (cs : List GoValue)
    (hP : ∀ v c, SQLType.Convert u v = .ok c → ∃ c2, SQLType.Convert u c = .ok c2)
    (himg : ∀ c2 ∈ cs, ∃ v0, SQLType.Convert u v0 = .ok c2) :
    ∃ cs2, arrayT.convertElems u cs = .ok cs2 := by
  induction cs with
  | nil => exact ⟨[], by simp [arrayT.convertElems]⟩
  | cons c1 cs ih =>
    obtain ⟨v0, hv0⟩ := himg c1 (by simp)
    obtain ⟨c2, hc2⟩ := hP v0 c1 hv0
    obtain ⟨cs2, hcs2⟩ := ih (fun c hc => himg c (by simp [hc]))
    exact ⟨c2 :: cs2, by simp [arrayT.convertElems, hc2, hcs2, Outcome.map]⟩

/-- Reflexive comparison of re-converted array elements is zero. -/
theorem arrayT_compareElems_self (u : SQLType) (xs ys : List GoValue)
    (hP : ∀ v c, SQLType.Convert u v = .ok c → SQLType.Compare u c c = .ok 0)
    (h : arrayT.convertElems u xs = .ok ys) :
    arrayT.compareElems u ys ys = .ok 0 := by
  induction xs generalizing ys with
  | nil =>
    simp only [arrayT.convertElems] at h
    injection h with h2
    rw [h2.symm]
    exact arrayT_compareElems_nil_eq u []
  | cons x1 xs ih =>
    simp only [arrayT.convertElems] at h
    split at h
    · rename_i y1 hy1
      obtain ⟨ys1, hys1, hy⟩ := Outcome.map_eq_ok h
      rw [hy, arrayT_compareElems_cons_eq, hP x1 y1 hy1]
      simpa using ih ys1 hys1
    · exact absurd h (by simp)
    · exact absurd h (by simp)

/-- Strong induction core of the idempotence property, bounded by the size
of the type. -/
theorem convert_idem_aux : ∀ (n : Nat) (t : SQLType), sizeOf t ≤ n → ∀ v c,
    SQLType.Convert t v = .ok c →
    (∃ c2, SQLType.Convert t c = .ok c2) ∧ SQLType.Compare t c c = .ok 0 := by
  intro n
  induction n with
  | zero =>
    intro t hle
    exfalso
    cases t <;> simp at hle
  | succ n ih =>
    intro t hle v c h
    cases t with
    | null =>
      have h2 : nullT.Convert v = .ok c := by simpa [SQLType.Convert] using h
      have hc : c = .nilv := by
        cases v <;> simp [nullT.Convert] at h2
        exact h2.symm
      subst hc
      exact ⟨⟨.nilv, by simp [SQLType.Convert, nullT.Convert]⟩, SQLType.Compare_null _ _⟩
    | number k =>
      have h2 : numberT.Convert k v = .ok c := by simpa [SQLType.Convert] using h
      obtain ⟨⟨c2, hc2⟩, hcmp⟩ := numberT_idem k v c h2
      exact ⟨⟨c2, by simpa [SQLType.Convert] using hc2⟩,
        by rw [SQLType.Compare_number]; exact hcmp⟩
    | timestamp =>
      have h2 : timestampT.Convert v = .ok c := by simpa [SQLType.Convert] using h
      obtain ⟨t0, hc⟩ := timestampT_convert_shape v c h2
      subst hc
      refine ⟨⟨.time t0.toUTC, by simp [SQLType.Convert, timestampT.Convert]⟩, ?_⟩
      rw [SQLType.Compare_timestamp]
      simp [timestampT.Compare, timeBefore_self]
    | date =>
      have h2 : dateT.Convert v = .ok c := by simpa [SQLType.Convert] using h
      obtain ⟨t0, hc⟩ := dateT_convert_shape v c h2
      subst hc
      refine ⟨⟨.time ((truncateDate ((truncateDate t0).toUTC)).toUTC),
        by simp [SQLType.Convert, dateT.Convert]⟩, ?_⟩
      rw [SQLType.Compare_date]
      simp [dateT.Compare, timeBefore_self]
    | text =>
      have h2 : textT.Convert v = .ok c := by simpa [SQLType.Convert] using h
      obtain ⟨s, hc⟩ := textT_convert_shape v c h2
      subst hc
      refine ⟨⟨.str s, rfl⟩, ?_⟩
      rw [SQLType.Compare_text]
      simp [textT.Compare, listCompareNat_self]
    | boolean =>
      have h2 : booleanT.Convert v = .ok c := by simpa [SQLType.Convert] using h
      obtain ⟨b, hc⟩ := booleanT_convert_shape v c h2
      subst hc
      refine ⟨⟨.boolean b, rfl⟩, ?_⟩
      rw [SQLType.Compare_boolean]
      simp [booleanT.Compare, goInterfaceEq]
    | blob =>
      have h2 : blobT.Convert v = .ok c := by simpa [SQLType.Convert] using h
      obtain ⟨bs, hc⟩ := blobT_convert_shape v c h2
      subst hc
      refine ⟨⟨.bytes bs, rfl⟩, ?_⟩
      rw [SQLType.Compare_blob]
      simp [blobT.Compare, listCompareNat_self]
    | json =>
      have h2 : jsonT.Convert v = .ok c := by simpa [SQLType.Convert] using h
      obtain ⟨bs, hc⟩ := jsonT_convert_shape v c h2
      subst hc
      refine ⟨⟨_, rfl⟩, ?_⟩
      rw [SQLType.Compare_json]
      simp [jsonT.Compare, listCompareNat_self]
    | tuple ts =>
      obtain ⟨vs, cs, hv, hc, hlen, hconv⟩ := tupleT_convert_inv ts v c h
      subst hv
      subst hc
      have himg := tupleT_convertElems_img ts vs cs hconv
      have hlen2 : cs.length = ts.length := himg.length_eq.symm
      have hPmem : ∀ t2 ∈ ts, ∀ v2 c2, SQLType.Convert t2 v2 = .ok c2 →
          (∃ c3, SQLType.Convert t2 c2 = .ok c3) ∧ SQLType.Compare t2 c2 c2 = .ok 0 := by
        intro t2 ht2
        apply ih t2
        have hlt := sizeOf_lt_of_mem_typelist ht2
        have hsz : sizeOf (SQLType.tuple ts) = 1 + sizeOf ts := by simp
        omega
      obtain ⟨cs2, hcs2⟩ := tupleT_convertElems_reconv ts cs
        (fun t2 ht2 v2 c2 h2 => (hPmem t2 ht2 v2 c2 h2).1) himg
      have hcv : SQLType.Convert (.tuple ts) (.list cs) = .ok (.list cs2) := by
        simp [SQLType.Convert, hlen2, hcs2, Outcome.map]
      refine ⟨⟨.list cs2, hcv⟩, ?_⟩
      rw [SQLType.Compare_tuple, hcv]
      exact tupleT_compareElems_self ts cs cs2
        (fun t2 ht2 v2 c2 h2 => (hPmem t2 ht2 v2 c2 h2).2) hcs2
    | array u =>
      obtain ⟨cs, hc, himg⟩ := arrayT_convert_inv u v c h
      subst hc
      have hPu : ∀ v2 c2, SQLType.Convert u v2 = .ok c2 →
          (∃ c3, SQLType.Convert u c2 = .ok c3) ∧ SQLType.Compare u c2 c2 = .ok 0 := by
        apply ih u
        have hsz : sizeOf (SQLType.array u) = 1 + sizeOf u := by simp
        omega
      obtain ⟨cs2, hcs2⟩ := arrayT_convertElems_reconv u cs
        (fun v2 c2 h2 => (hPu v2 c2 h2).1) himg
      have hcv : SQLType.Convert (.array u) (.list cs) = .ok (.list cs2) := by
        simp [SQLType.Convert, hcs2, Outcome.map]
      refine ⟨⟨.list cs2, hcv⟩, ?_⟩
      rw [SQLType.Compare_array, hcv]
      simp only [lt_irrefl, if_false]
      exact arrayT_compareElems_self u cs cs2 (fun v2 c2 h2 => (hPu v2 c2 h2).2) hcs2

/-- C6: conversion is idempotent for every type, the composites included:
when t.Convert(v) succeeds with c, t.Convert(c) succeeds too and
t.Compare(c, c) returns 0. -/
theorem convert_idempotent (t : SQLType) (v c : GoValue)
    (h : SQLType.Convert t v = .ok c) :
    (∃ c2, SQLType.Convert t c = .ok c2) ∧ SQLType.Compare t c c = .ok 0 :=
  convert_idem_aux (sizeOf t) t le_rfl v c h

/-- Witness of the idempotence theorem at a composite input: a tuple of an
int and the quirky int64 zero boolean conversion. -/
theorem convert_idempotent_witness :
    SQLType.Convert (Tuple [Int64, Boolean]) (.list [.int 7, .int64 0]) =
      .ok (.list [.int64 7, .boolean true]) ∧
    ((∃ c2, SQLType.Convert (Tuple [Int64, Boolean])
        (.list [.int64 7, .boolean true]) = .ok c2) ∧
      SQLType.Compare (Tuple [Int64, Boolean]) (.list [.int64 7, .boolean true])
        (.list [.int64 7, .boolean true]) = .ok 0) :=
  ⟨rfl, convert_idempotent (Tuple [Int64, Boolean]) (.list [.int 7, .int64 0])
    (.list [.int64 7, .boolean true]) rfl⟩

/-- C2 counterexample: the 8 and 16 bit numeric variants reject even plainly
numeric inputs, against the claim that all ten variants coerce any
numeric-like input. -/
theorem numberT_convert_narrow_counterexample :
    SQLType.Convert Int8 (.int 1) = .err (.invalidType "INT8") ∧
    SQLType.Convert Uint8 (.int 1) = .err (.invalidType "UINT8") ∧
    SQLType.Convert Int16 (.int 1) = .err (.invalidType "INT16") ∧
    SQLType.Convert Uint16 (.int 1) = .err (.invalidType "UINT16") ∧
    SQLType.Convert Int8 (.float64 (mkRat 3 2)) = .err (.invalidType "INT8") :=
  ⟨rfl, rfl, rfl, rfl, rfl⟩

/-- C2 amended: only the six 32/64-bit variants coerce numeric-like inputs
to their target width (after first mapping a timestamp input to its
Unix-epoch-seconds integer, for every width), failing only when the generic
coercion has no rule; the four 8/16-bit variants fall into the dispatch
default and fail with InvalidType on every input. -/
theorem numberT_convert_amended :
    (∀ v, SQLType.Convert Int8 v = .err (.invalidType "INT8")) ∧
    (∀ v, SQLType.Convert Uint8 v = .err (.invalidType "UINT8")) ∧
    (∀ v, SQLType.Convert Int16 v = .err (.invalidType "INT16")) ∧
    (∀ v, SQLType.Convert Uint16 v = .err (.invalidType "UINT16")) ∧
    (∀ (k : NumKind) (t : GoTime),
      SQLType.Convert (.number k) (.time t) = SQLType.Convert (.number k) (.int64 t.unix)) ∧
    (∀ (k : NumKind) (v c : GoValue), SQLType.Convert (.number k) v = .ok c → numCanon k c) ∧
    (∀ i : Int, SQLType.Convert Int64 (.int i) = .ok (.int64 i)) ∧
    (∀ i : Int, SQLType.Convert Int32 (.int64 i) = .ok (.int32 (wrapS 32 i))) ∧
    (∀ n : Nat, SQLType.Convert Uint64 (.uint32 n) = .ok (.uint64 n)) ∧
    (∀ q : Rat, SQLType.Convert Float64 (.float32 q) = .ok (.float64 q)) ∧
    (∀ t : GoTime, SQLType.Convert Int64 (.time t) = .ok (.int64 t.epoch)) ∧
    (∀ s : String, SQLType.Convert Int64 (.str s) =
      (match goParseIntBase0 64 s with
        | some i => .ok (.int64 i)
        | none => .err (.castError ("unable to cast string to int64: " ++ s)))) := by
  refine ⟨fun v => ?_, fun v => ?_, fun v => ?_, fun v => ?_, fun k t => ?_,
    fun k v c h => ?_, fun i => rfl, fun i => rfl, fun n => rfl, fun q => rfl,
    fun t => rfl, fun s => ?_⟩
  · simp [SQLType.Convert, Int8, numberT.Convert, NumKind.queryTypeName]
  · simp [SQLType.Convert, Uint8, numberT.Convert, NumKind.queryTypeName]
  · simp [SQLType.Convert, Int16, numberT.Convert, NumKind.queryTypeName]
  · simp [SQLType.Convert, Uint16, numberT.Convert, NumKind.queryTypeName]
  · simp only [SQLType.Convert]
    rfl
  · simp only [SQLType.Convert] at h
    cases k <;> simp only [numberT.Convert] at h
    case i8 => exact absurd h (by simp)
    case u8 => exact absurd h (by simp)
    case i16 => exact absurd h (by simp)
    case u16 => exact absurd h (by simp)
    all_goals {
      obtain ⟨a, _, hc⟩ := Outcome.map_eq_ok h
      rw [hc]
      trivial
    }
  · cases hp : goParseIntBase0 64 s <;>
      simp [SQLType.Convert, Int64, numberT.Convert, GoCast.ToInt64E, hp, Outcome.map]

/-- Witness of the width clause of the amended numeric conversion theorem
at two concrete conversions. -/
theorem numberT_convert_amended_witness :
    numCanon .i64 (.int64 5) ∧ numCanon .f64 (.float64 (mkRat 3 2)) :=
  ⟨numberT_convert_amended.2.2.2.2.2.1 .i64 (.int 5) (.int64 5) rfl,
    numberT_convert_amended.2.2.2.2.2.1 .f64 (.float64 (mkRat 3 2))
      (.float64 (mkRat 3 2)) rfl⟩

/-- Witness of the truncation-equality clause of the float comparison
theorem at the concrete pair 1.5 and 1.2. -/
theorem float_compare_signed_truncation_witness :
    truncRat (mkRat 3 2) = truncRat (mkRat 6 5) ∧
    SQLType.Compare Float64 (.float64 (mkRat 3 2)) (.float64 (mkRat 6 5)) = .ok 0 :=
  ⟨by decide, float_compare_signed_truncation.2.2.2.1 (mkRat 3 2) (mkRat 6 5) (by decide)⟩

end GoMysql
